import Mathlib

/-!
# Single-slot shared-memory channel (`shm_producer.cpp` / `shm_consumer.cpp`)

A shallow embedding of the two programs under `src/shared_memory/`.

* The set-up part of each `main` is a function of the results the operating
  system returns for the calls it makes.
* The two `while (running)` loops and the code after them are small-step
  machines over one shared state (`Sys`): the mapped `SharedMemory`, the counts
  of the two named semaphores, and the local variables of each process.  One
  step is one synchronisation-relevant statement of the source; the results the
  environment supplies (outcome of a semaphore wait, the freshly sampled sensor
  values) come with the step as an `Action`.
* What a process prints is kept as a list of `Output` events, the system calls of
  set-up and tear-down as a list of `Syscall`s.

Machine integers: `uint32_t` values are naturals reduced modulo `2 ^ 32`
(`u32`); the `int` counter is an integer reduced to the 32-bit two's-complement
range (`i32`).  The three `float` readings are never computed on by the
protocol and are carried as raw bit patterns.
-/

namespace ShmIpc

/-! ## Machine integers -/

/-- Value of a `uint32_t` expression: reduction modulo `2 ^ 32`. -/
def u32 (n : Nat) : Nat := n % 4294967296

/-- Value of an `int` expression on a 32-bit two's-complement target. -/
def i32 (x : Int) : Int := (x + 2147483648) % 4294967296 - 2147483648

/-! ## Data model -/

/-- The `struct SensorData` of both programs; floats as raw bit patterns. -/
structure SensorData where
  temperature : Nat
  pressure : Nat
  voltage : Nat
  error_code : Int
  timestamp : Nat
  sequence_number : Nat
  valid : Bool
deriving DecidableEq, Repr

/-- The `struct SharedMemory` of both programs. -/
structure SharedMemory where
  data : SensorData
  producer_active : Bool
deriving DecidableEq, Repr

/-- The all-zero record left by `memset(shared_mem, 0, sizeof(SharedMemory))`. -/
def SensorData.zero : SensorData :=
  { temperature := 0, pressure := 0, voltage := 0, error_code := 0,
    timestamp := 0, sequence_number := 0, valid := false }

/-- The three names `SHM_NAME`, `SEM_WRITE_NAME`, `SEM_READ_NAME`. -/
inductive ObjName
  | SHM_NAME
  | SEM_WRITE_NAME
  | SEM_READ_NAME
deriving DecidableEq, Repr

/-- The `errno` values the consumer distinguishes; `other` is any further code. -/
inductive Errno
  | ETIMEDOUT
  | EINTR
  | other (code : Nat)
deriving DecidableEq, Repr

/-- Result of `sem_wait` / `sem_timedwait`: `0`, or `-1` with an `errno`. -/
inductive WaitResult
  | acquired
  | failed (e : Errno)
deriving DecidableEq, Repr

/-- System calls of set-up and tear-down, as issued by the two programs.
`shm_open n create`: `create` is the `O_CREAT` flag.  `sem_open n v`: `v` is
`some k` for `O_CREAT` with initial value `k`, `none` for a plain open.
`mmap w`: `w` is `PROT_WRITE`. -/
inductive Syscall
  | signal_handlers
  | shm_unlink (n : ObjName)
  | sem_unlink (n : ObjName)
  | shm_open (n : ObjName) (create : Bool)
  | ftruncate
  | mmap (writable : Bool)
  | munmap
  | close
  | sem_open (n : ObjName) (create : Option Nat)
  | sem_close (n : ObjName)
  | memset_zero
  | sleep
deriving DecidableEq, Repr

/-- The set-up call a diagnostic on `std::cerr` is about. -/
inductive SetupStep
  | shm_open
  | ftruncate
  | mmap
  | sem_open_write
  | sem_open_read
deriving DecidableEq, Repr

/-- What the programs print, one event per message. -/
inductive Output
  | waiting
  | setup_error (what : SetupStep)
  | started
  | published (d : SensorData)
  | producer_stopped
  | peer_stopped
  | wait_error (e : Errno)
  | missed (expected got : Nat)
  | record (d : SensorData) (error_flag : Bool)
  | consumer_stopped (received : Int)
deriving DecidableEq, Repr

/-! ## The three names and what they denote -/

/-- The all-zero content of a freshly sized or zeroed segment. -/
def SharedMemory.zero : SharedMemory :=
  { data := SensorData.zero, producer_active := false }

/-- What the three names denote: the content of the segment, the counts of the
two semaphores; `none` where the name does not exist. -/
structure Names where
  segment : Option SharedMemory
  sem_write : Option Nat
  sem_read : Option Nat
deriving DecidableEq, Repr

/-- Effect on the three names of a call, given whether it succeeded (`ok`), as
POSIX defines it.  A call that fails changes nothing: a name whose unlink
fails keeps its object.  An unlink that succeeds removes the name; an open
with `O_CREAT` and without `O_EXCL` that succeeds creates the object (a
semaphore with the given count, a segment that reads as zeros once sized) if
the name does not exist, and otherwise opens the existing object as it is,
ignoring the initial value; `memset` zeroes the mapped segment.  The other
calls leave the names and the objects as they are. -/
def Names.apply (k : Names) (c : Syscall) (ok : Bool) : Names :=
  if ok then
    match c with
    | .shm_unlink .SHM_NAME => { k with segment := none }
    | .sem_unlink .SEM_WRITE_NAME => { k with sem_write := none }
    | .sem_unlink .SEM_READ_NAME => { k with sem_read := none }
    | .shm_open .SHM_NAME true => { k with segment := some (k.segment.getD SharedMemory.zero) }
    | .sem_open .SEM_WRITE_NAME (some v) => { k with sem_write := some (k.sem_write.getD v) }
    | .sem_open .SEM_READ_NAME (some v) => { k with sem_read := some (k.sem_read.getD v) }
    | .memset_zero => { k with segment := k.segment.map (fun _ => SharedMemory.zero) }
    | _ => k
  else k

/-- The names after a sequence of calls, each with its result. -/
def Names.replay (k : Names) (calls : List (Syscall × Bool)) : Names :=
  calls.foldl (fun acc c => acc.apply c.1 c.2) k

/-- A sequence of calls that all succeed. -/
def succeeded (calls : List Syscall) : List (Syscall × Bool) :=
  calls.map (fun c => (c, true))

/-! ## Set-up of the producer (`shm_producer.cpp`, lines 42-103) -/

/-- What the producer's set-up meets: what the three names denote when it
starts (`prior`), the results of the three unlinks of lines 45-47, which the
program does not look at, and the results of the calls it tests (`true`:
success). -/
structure ProducerSetupEnv where
  prior : Names
  shm_unlink_ok : Bool
  sem_write_unlink_ok : Bool
  sem_read_unlink_ok : Bool
  shm_open_ok : Bool
  ftruncate_ok : Bool
  mmap_ok : Bool
  sem_write_ok : Bool
  sem_read_ok : Bool
deriving DecidableEq, Repr

/-- The kernel objects shared by the two processes. -/
structure Region where
  shared_mem : SharedMemory
  sem_write : Nat
  sem_read : Nat
deriving DecidableEq, Repr

/-- How a set-up phase ends: the calls made, the messages printed, the value
returned from `main` if set-up returned, the shared objects if it created them. -/
structure SetupOutcome where
  calls : List Syscall
  out : List Output
  exit_code : Option Int
  region : Option Region
deriving DecidableEq, Repr

/-- Lines 42-49: handlers, removal of stale objects, `shm_open` with `O_CREAT`. -/
def producerPrologue : List Syscall :=
  [.signal_handlers, .shm_unlink .SHM_NAME, .sem_unlink .SEM_WRITE_NAME,
   .sem_unlink .SEM_READ_NAME, .shm_open .SHM_NAME true]

/-- The calls of a set-up that succeeds (lines 42-98), each with its result:
the unlinks return what the environment says, every tested call succeeded. -/
def producerResults (env : ProducerSetupEnv) : List (Syscall × Bool) :=
  [(.signal_handlers, true),
   (.shm_unlink .SHM_NAME, env.shm_unlink_ok),
   (.sem_unlink .SEM_WRITE_NAME, env.sem_write_unlink_ok),
   (.sem_unlink .SEM_READ_NAME, env.sem_read_unlink_ok),
   (.shm_open .SHM_NAME true, true),
   (.ftruncate, true),
   (.mmap true, true),
   (.sem_open .SEM_WRITE_NAME (some 1), true),
   (.sem_open .SEM_READ_NAME (some 0), true),
   (.memset_zero, true)]

/-- The shared objects a successful set-up hands to the loop: what the three
names denote after its calls, with `producer_active` set by line 99. -/
def producerRegion (env : ProducerSetupEnv) : Option Region :=
  let k := env.prior.replay (producerResults env)
  match k.segment, k.sem_write, k.sem_read with
  | some m, some w, some r =>
    some { shared_mem := { m with producer_active := true }, sem_write := w, sem_read := r }
  | _, _, _ => none

/-- Set-up of the producer, lines 42-103 of `shm_producer.cpp`. -/
def producerSetup (env : ProducerSetupEnv) : SetupOutcome :=
  if !env.shm_open_ok then
    { calls := producerPrologue, out := [.setup_error .shm_open],
      exit_code := some 1, region := none }
  else if !env.ftruncate_ok then
    { calls := producerPrologue ++ [.ftruncate, .close, .shm_unlink .SHM_NAME],
      out := [.setup_error .ftruncate], exit_code := some 1, region := none }
  else if !env.mmap_ok then
    { calls := producerPrologue ++ [.ftruncate, .mmap true, .close, .shm_unlink .SHM_NAME],
      out := [.setup_error .mmap], exit_code := some 1, region := none }
  else if !env.sem_write_ok then
    { calls := producerPrologue ++
        [.ftruncate, .mmap true, .sem_open .SEM_WRITE_NAME (some 1),
         .munmap, .close, .shm_unlink .SHM_NAME],
      out := [.setup_error .sem_open_write], exit_code := some 1, region := none }
  else if !env.sem_read_ok then
    { calls := producerPrologue ++
        [.ftruncate, .mmap true, .sem_open .SEM_WRITE_NAME (some 1),
         .sem_open .SEM_READ_NAME (some 0),
         .sem_close .SEM_WRITE_NAME, .sem_unlink .SEM_WRITE_NAME,
         .munmap, .close, .shm_unlink .SHM_NAME],
      out := [.setup_error .sem_open_read], exit_code := some 1, region := none }
  else
    { calls := producerPrologue ++
        [.ftruncate, .mmap true, .sem_open .SEM_WRITE_NAME (some 1),
         .sem_open .SEM_READ_NAME (some 0), .memset_zero],
      out := [.started], exit_code := none,
      region := producerRegion env }

/-! ## Set-up of the consumer (`shm_consumer.cpp`, lines 41-94) -/

/-- Results returned to the consumer during set-up.  `running_at i` is the value
of `running` read by the loop test with counter `i`; `shm_open_ok i` tells
whether the `shm_open` of that round returns a descriptor. -/
structure ConsumerSetupEnv where
  running_at : Nat → Bool
  shm_open_ok : Nat → Bool
  mmap_ok : Bool
  sem_write_ok : Bool
  sem_read_ok : Bool

/-- The loop `for (int i = 0; i < 10 && running; ++i)` of lines 47-51, from
counter value `i`, with `fuel` bounding the rounds still to run.  Returns
whether `shm_fd >= 0` on leaving the loop, and the calls made. -/
def shmOpenLoop (env : ConsumerSetupEnv) : Nat → Nat → Bool × List Syscall
  | 0, _ => (false, [])
  | fuel + 1, i =>
    if i < 10 && env.running_at i then
      if env.shm_open_ok i then (true, [.shm_open .SHM_NAME false])
      else
        let rest := shmOpenLoop env fuel (i + 1)
        (rest.1, [.shm_open .SHM_NAME false, .sleep] ++ rest.2)
    else (false, [])

/-- Set-up of the consumer, lines 41-91 of `shm_consumer.cpp`. -/
def consumerSetup (env : ConsumerSetupEnv) : SetupOutcome :=
  let opened := shmOpenLoop env 10 0
  let c0 := [Syscall.signal_handlers] ++ opened.2
  if !opened.1 then
    { calls := c0, out := [.waiting, .setup_error .shm_open], exit_code := some 1, region := none }
  else if !env.mmap_ok then
    { calls := c0 ++ [.mmap false, .close],
      out := [.waiting, .setup_error .mmap], exit_code := some 1, region := none }
  else if !env.sem_write_ok then
    { calls := c0 ++ [.mmap false, .sem_open .SEM_WRITE_NAME none, .munmap, .close],
      out := [.waiting, .setup_error .sem_open_write], exit_code := some 1, region := none }
  else if !env.sem_read_ok then
    { calls := c0 ++
        [.mmap false, .sem_open .SEM_WRITE_NAME none, .sem_open .SEM_READ_NAME none,
         .sem_close .SEM_WRITE_NAME, .munmap, .close],
      out := [.waiting, .setup_error .sem_open_read], exit_code := some 1, region := none }
  else
    { calls := c0 ++
        [.mmap false, .sem_open .SEM_WRITE_NAME none, .sem_open .SEM_READ_NAME none],
      out := [.waiting, .started], exit_code := none, region := none }

/-! ## The two loops as step machines -/

/-- Control points of the producer after set-up (`shm_producer.cpp`). -/
inductive PPc
  | loop_head       -- line 108, `while (running)`
  | wait            -- line 109, `sem_wait(sem_write)`
  | mutate          -- lines 111-132
  | post_read       -- line 134, `sem_post(sem_read)`
  | sleep           -- line 136
  | shutdown_flag   -- line 139
  | shutdown_post   -- line 140
  | cleanup         -- lines 142-152
  | exited
deriving DecidableEq, Repr

/-- Control points of the consumer after set-up (`shm_consumer.cpp`). -/
inductive CPc
  | loop_head       -- line 96, `while (running)`
  | wait            -- lines 97-114, `sem_timedwait(sem_read, &timeout)`
  | timeout_check   -- line 103, after `ETIMEDOUT`
  | check_active    -- line 116
  | copy            -- line 121
  | post_write      -- line 123, `sem_post(sem_write)`
  | validate        -- lines 125-147
  | cleanup         -- lines 150-158
  | exited
deriving DecidableEq, Repr

/-- Local state of the producer process. -/
structure Producer where
  pc : PPc
  running : Bool
  sequence : Nat
  out : List Output
  calls : List Syscall
  exit_code : Option Int
deriving DecidableEq, Repr

/-- Local state of the consumer process; `data` is the local copy of line 121. -/
structure Consumer where
  pc : CPc
  running : Bool
  data : SensorData
  last_sequence : Nat
  packets_received : Int
  out : List Output
  calls : List Syscall
  exit_code : Option Int
deriving DecidableEq, Repr

/-- State of the composed system.  `published` counts the executions of line 134
of the producer, `consumed` those of line 123 of the consumer; both are history
counters that no step reads. -/
structure Sys where
  shared_mem : SharedMemory
  sem_write : Nat
  sem_read : Nat
  prod : Producer
  cons : Consumer
  published : Nat
  consumed : Nat
deriving DecidableEq, Repr

/-- Number of records published by the producer and not yet released by the
consumer. -/
def Sys.unread (s : Sys) : Nat := s.published - s.consumed

/-- Values sampled by the producer in one pass through lines 111-124: the three
float readings, the two `rand()` results of line 120, the clock. -/
structure Reading where
  temperature : Nat
  pressure : Nat
  voltage : Nat
  rand_gate : Nat
  rand_code : Nat
  timestamp : Nat
deriving DecidableEq, Repr

/-- The record stored by lines 111-126 when the counter holds `sequence`. -/
def mutateRecord (r : Reading) (sequence : Nat) : SensorData :=
  { temperature := r.temperature
    pressure := r.pressure
    voltage := r.voltage
    error_code := if r.rand_gate % 100 < 5 then ((r.rand_code % 10 : Nat) : Int) else 0
    timestamp := r.timestamp
    sequence_number := sequence
    valid := true }

/-- Tear-down calls of the producer, lines 142-148. -/
def producerTeardown : List Syscall :=
  [.sem_close .SEM_WRITE_NAME, .sem_close .SEM_READ_NAME,
   .sem_unlink .SEM_WRITE_NAME, .sem_unlink .SEM_READ_NAME,
   .munmap, .close, .shm_unlink .SHM_NAME]

/-- Tear-down calls of the consumer, lines 150-153. -/
def consumerTeardown : List Syscall :=
  [.sem_close .SEM_WRITE_NAME, .sem_close .SEM_READ_NAME, .munmap, .close]

/-- One step of the producer.  `w` is what `sem_wait` returns (used at `wait`),
`r` the values sampled (used at `mutate`).  `none`: the step cannot be taken
(blocked in `sem_wait`, or the process has returned). -/
def producerStep (w : WaitResult) (r : Reading) (s : Sys) : Option Sys :=
  match s.prod.pc with
  | .loop_head =>
    some { s with prod := { s.prod with
      pc := if s.prod.running then .wait else .shutdown_flag } }
  | .wait =>
    -- line 109: the value returned by `sem_wait` is not looked at
    match w with
    | .acquired =>
      if 0 < s.sem_write then
        some { s with sem_write := s.sem_write - 1, prod := { s.prod with pc := .mutate } }
      else none
    | .failed _ => some { s with prod := { s.prod with pc := .mutate } }
  | .mutate =>
    let d := mutateRecord r s.prod.sequence
    some { s with
      shared_mem := { s.shared_mem with data := d }
      prod := { s.prod with
        pc := .post_read
        sequence := u32 (s.prod.sequence + 1)
        out := s.prod.out ++ [.published d] } }
  | .post_read =>
    some { s with
      sem_read := s.sem_read + 1
      published := s.published + 1
      prod := { s.prod with pc := .sleep } }
  | .sleep => some { s with prod := { s.prod with pc := .loop_head } }
  | .shutdown_flag =>
    some { s with
      shared_mem := { s.shared_mem with producer_active := false }
      prod := { s.prod with pc := .shutdown_post } }
  | .shutdown_post =>
    some { s with sem_read := s.sem_read + 1, prod := { s.prod with pc := .cleanup } }
  | .cleanup =>
    some { s with prod := { s.prod with
      pc := .exited
      calls := s.prod.calls ++ producerTeardown
      out := s.prod.out ++ [.producer_stopped]
      exit_code := some 0 } }
  | .exited => none

/-- Lines 125-147 of the consumer: counting, gap check and printing of the
copied record `c.data`. -/
def validate (c : Consumer) : Consumer :=
  if c.data.valid then
    { c with
      packets_received := i32 (c.packets_received + 1)
      out := c.out ++
        (if c.data.sequence_number ≠ u32 (c.last_sequence + 1) ∧ c.last_sequence ≠ 0
          then [Output.missed (u32 (c.last_sequence + 1)) c.data.sequence_number]
          else []) ++
        [Output.record c.data (decide (c.data.error_code ≠ 0))]
      last_sequence := c.data.sequence_number }
  else c

/-- One step of the consumer.  `w` is what `sem_timedwait` returns (used at
`wait`).  A wait can succeed only on a positive count and can time out only on
a zero count.  `none`: the step cannot be taken. -/
def consumerStep (w : WaitResult) (s : Sys) : Option Sys :=
  match s.cons.pc with
  | .loop_head =>
    some { s with cons := { s.cons with
      pc := if s.cons.running then .wait else .cleanup } }
  | .wait =>
    match w with
    | .acquired =>
      if 0 < s.sem_read then
        some { s with sem_read := s.sem_read - 1, cons := { s.cons with pc := .check_active } }
      else none
    | .failed .ETIMEDOUT =>
      if s.sem_read = 0 then
        some { s with cons := { s.cons with pc := .timeout_check } }
      else none
    | .failed .EINTR => some { s with cons := { s.cons with pc := .loop_head } }
    | .failed (.other code) =>
      some { s with cons := { s.cons with
        pc := .cleanup
        out := s.cons.out ++ [.wait_error (.other code)] } }
  | .timeout_check =>
    if !s.shared_mem.producer_active then
      some { s with cons := { s.cons with
        pc := .cleanup, out := s.cons.out ++ [.peer_stopped] } }
    else some { s with cons := { s.cons with pc := .loop_head } }
  | .check_active =>
    if !s.shared_mem.producer_active then
      some { s with cons := { s.cons with
        pc := .cleanup, out := s.cons.out ++ [.peer_stopped] } }
    else some { s with cons := { s.cons with pc := .copy } }
  | .copy =>
    some { s with cons := { s.cons with pc := .post_write, data := s.shared_mem.data } }
  | .post_write =>
    some { s with
      sem_write := s.sem_write + 1
      consumed := s.consumed + 1
      cons := { s.cons with pc := .validate } }
  | .validate =>
    some { s with cons := { validate s.cons with pc := .loop_head } }
  | .cleanup =>
    some { s with cons := { s.cons with
      pc := .exited
      calls := s.cons.calls ++ consumerTeardown
      out := s.cons.out ++ [.consumer_stopped s.cons.packets_received]
      exit_code := some 0 } }
  | .exited => none

/-- What can happen next: a step of one process with the results the
environment hands it, or the delivery of `SIGINT`/`SIGTERM` to one process. -/
inductive Action
  | producer (w : WaitResult) (r : Reading)
  | consumer (w : WaitResult)
  | signal_producer
  | signal_consumer
deriving DecidableEq, Repr

/-- The composed step function. -/
def step (a : Action) (s : Sys) : Option Sys :=
  match a with
  | .producer w r => producerStep w r s
  | .consumer w => consumerStep w s
  | .signal_producer => some { s with prod := { s.prod with running := false } }
  | .signal_consumer => some { s with cons := { s.cons with running := false } }

/-- Run a sequence of actions; `none` if one of them cannot be taken. -/
def run : List Action → Sys → Option Sys
  | [], s => some s
  | a :: rest, s => (step a s).bind (run rest)

/-- An action of the permit handshake: the producer's `sem_wait` returns only
by acquiring the write-permit. -/
def Action.handshake : Action → Bool
  | .producer (.failed _) _ => false
  | _ => true

/-- State in which both processes have finished set-up and stand at their
loops (producer line 105, consumer lines 93-94), the semaphores having been
created by the producer's set-up with their initial values 1 and 0. -/
def start : Sys :=
  { shared_mem := { data := SensorData.zero, producer_active := true }
    sem_write := 1
    sem_read := 0
    prod := { pc := .loop_head, running := true, sequence := 0, out := [],
              calls := [], exit_code := none }
    cons := { pc := .loop_head, running := true, data := SensorData.zero,
              last_sequence := 0, packets_received := 0, out := [],
              calls := [], exit_code := none }
    published := 0
    consumed := 0 }

/-- States reachable from `start` under the permit handshake. -/
def Reachable (s : Sys) : Prop :=
  ∃ acts : List Action, (∀ a ∈ acts, a.handshake = true) ∧ run acts start = some s

/-- Sequence numbers of the records the consumer has processed, in order. -/
def processedSeqs : List Output → List Nat
  | [] => []
  | .record d _ :: rest => d.sequence_number :: processedSeqs rest
  | _ :: rest => processedSeqs rest

/-- The gap reports among the messages, as pairs (expected, got). -/
def gapReports : List Output → List (Nat × Nat)
  | [] => []
  | .missed e g :: rest => (e, g) :: gapReports rest
  | _ :: rest => gapReports rest

/-! ## Quantities of the handshake, by control point -/

/-- Is `1` while the producer holds the write-permit: after its `sem_wait`
(line 109) and before its `sem_post(sem_read)` (line 134). -/
def PPc.holds : PPc → Nat
  | .mutate => 1
  | .post_read => 1
  | .loop_head => 0
  | .wait => 0
  | .sleep => 0
  | .shutdown_flag => 0
  | .shutdown_post => 0
  | .cleanup => 0
  | .exited => 0

/-- Is `1` once the producer has executed its shutdown `sem_post(sem_read)` of
line 140. -/
def PPc.posted : PPc → Nat
  | .cleanup => 1
  | .exited => 1
  | .loop_head => 0
  | .wait => 0
  | .mutate => 0
  | .post_read => 0
  | .sleep => 0
  | .shutdown_flag => 0
  | .shutdown_post => 0

/-- The value `producer_active` has at each control point of the producer:
`true` until line 139 has run. -/
def PPc.activeFlag : PPc → Bool
  | .shutdown_post => false
  | .cleanup => false
  | .exited => false
  | .loop_head => true
  | .wait => true
  | .mutate => true
  | .post_read => true
  | .sleep => true
  | .shutdown_flag => true

/-- Is `1` at `post_read`: the record is written but line 134 has not run. -/
def PPc.inflight : PPc → Nat
  | .post_read => 1
  | .mutate => 0
  | .loop_head => 0
  | .wait => 0
  | .sleep => 0
  | .shutdown_flag => 0
  | .shutdown_post => 0
  | .cleanup => 0
  | .exited => 0

/-- Is `1` while the consumer has taken a read-permit and not yet released the
write-permit (lines 116-123). -/
def CPc.holds : CPc → Nat
  | .check_active => 1
  | .copy => 1
  | .post_write => 1
  | .loop_head => 0
  | .wait => 0
  | .timeout_check => 0
  | .validate => 0
  | .cleanup => 0
  | .exited => 0

/-- Is `1` at lines 121-123, where the consumer is past its active check. -/
def CPc.copying : CPc → Nat
  | .copy => 1
  | .post_write => 1
  | .check_active => 0
  | .loop_head => 0
  | .wait => 0
  | .timeout_check => 0
  | .validate => 0
  | .cleanup => 0
  | .exited => 0

/-- Is `1` once the consumer has left its loop. -/
def CPc.stopped : CPc → Nat
  | .cleanup => 1
  | .exited => 1
  | .copy => 0
  | .post_write => 0
  | .check_active => 0
  | .loop_head => 0
  | .wait => 0
  | .timeout_check => 0
  | .validate => 0

/-- Is `1` at `validate`: a record is released but not yet counted. -/
def CPc.pending : CPc → Nat
  | .validate => 1
  | .copy => 0
  | .post_write => 0
  | .check_active => 0
  | .loop_head => 0
  | .wait => 0
  | .timeout_check => 0
  | .cleanup => 0
  | .exited => 0

/-- Invariant of the permit counts under the handshake. -/
structure PermitInv (s : Sys) : Prop where
  le : s.consumed ≤ s.published
  write : s.sem_write + s.prod.pc.holds + (s.published - s.consumed) = 1
  read_le : s.sem_read ≤ (s.published - s.consumed) + s.prod.pc.posted
  read : s.cons.pc.stopped = 0 →
    s.sem_read + s.cons.pc.holds = (s.published - s.consumed) + s.prod.pc.posted
  active : s.shared_mem.producer_active = s.prod.pc.activeFlag
  copying : s.cons.pc.copying = 1 → s.published = s.consumed + 1

/-- Invariant of the data under the handshake: what the slot and the
consumer's copy hold, and what the consumer has counted and printed. -/
structure DataInv (s : Sys) : Prop where
  sequence : s.prod.sequence = u32 (s.published + s.prod.pc.inflight)
  slot : 0 < s.published + s.prod.pc.inflight →
    s.shared_mem.data.valid = true ∧
      s.shared_mem.data.sequence_number = u32 (s.published + s.prod.pc.inflight - 1)
  copied : s.cons.pc = .post_write →
    s.cons.data.valid = true ∧ s.cons.data.sequence_number = u32 s.consumed
  released : s.cons.pc = .validate →
    1 ≤ s.consumed ∧ s.cons.data.valid = true ∧
      s.cons.data.sequence_number = u32 (s.consumed - 1)
  seqs : processedSeqs s.cons.out = (List.range (s.consumed - s.cons.pc.pending)).map u32
  gaps : gapReports s.cons.out = []
  last : s.cons.last_sequence = u32 (s.consumed - s.cons.pc.pending - 1)
  count : s.cons.packets_received = i32 ((s.consumed - s.cons.pc.pending : Nat) : Int)

/-- Every record the consumer has printed as processed had `valid` set. -/
def RecordsValid (out : List Output) : Prop :=
  ∀ d f, Output.record d f ∈ out → d.valid = true

/-! ## Concrete runs -/

/-- Sensor values used in the concrete runs. -/
def sample : Reading :=
  { temperature := 0, pressure := 0, voltage := 0, rand_gate := 50, rand_code := 0,
    timestamp := 0 }

/-- A producer step whose `sem_wait`, if it is at one, acquires the permit. -/
def pStep : Action := .producer .acquired sample

/-- A consumer step whose `sem_timedwait`, if it is at one, acquires the permit. -/
def cStep : Action := .consumer .acquired

/-- One pass of the producer through lines 108-136, back to the loop test. -/
def publishOnce : List Action := [pStep, pStep, pStep, pStep, pStep]

/-- One pass of the consumer through lines 96-147, back to the loop test. -/
def consumeOnce : List Action := [cStep, cStep, cStep, cStep, cStep, cStep]

/-- The producer publishes one record, is told to stop and runs lines 139-152
before the consumer reaches its first wait; then the consumer runs to its end. -/
def shutdownBeforeRead : List Action :=
  publishOnce ++ [.signal_producer, pStep, pStep, pStep, pStep] ++
    [cStep, cStep, cStep, cStep]

/-- The producer acquires the write-permit and stops before line 111. -/
def producerInside : List Action := [pStep, pStep]

/-- The producer publishes one record, is told to stop and executes lines
139-140 while the record is still unread. -/
def shutdownUnread : List Action :=
  publishOnce ++ [.signal_producer, pStep, pStep, pStep]

/-- State after one publish and one complete pass of the consumer. -/
def afterRoundTrip : Sys := (run (publishOnce ++ consumeOnce) start).getD start

/-- State in which the first record is published and unread and the producer
is at its second `sem_wait`. -/
def producerAtWait : Sys := (run (publishOnce ++ [pStep]) start).getD start

/-- A producer step whose `sem_wait`, if it is at one, returns `-1` with
`errno = EINTR`. -/
def pInterrupted : Action := .producer (.failed .EINTR) sample

/-- Records 0 and 1 are published and record 0 is processed; then the
producer's third `sem_wait` is interrupted while record 1 is unread, so record 2
replaces it; the consumer then runs up to its gap check on record 2. -/
def lostRecordOne : List Action :=
  publishOnce ++ consumeOnce ++ publishOnce ++ [pStep, pInterrupted, pStep, pStep] ++
    [cStep, cStep, cStep, cStep, cStep]

/-- Count of the sequence numbers from `expected` up to but excluding `got`. -/
def missingCount (expected got : Nat) : Nat := got - expected

/-- A state in which the consumer is about to copy the all-zero record, whose
`valid` flag is false. -/
def copyingInvalid : Sys :=
  { start with cons := { start.cons with pc := .copy } }

/-- A state in which the consumer, having seen sequence number 2, is about to
copy a valid record with sequence number 5. -/
def copyingFive : Sys :=
  { start with
    shared_mem := { start.shared_mem with data := mutateRecord sample 5 }
    cons := { start.cons with pc := .copy, last_sequence := 2, packets_received := 3 } }

/-- A state in which the consumer is at its wait, the read-permit count is 1
and the producer has cleared `producer_active`. -/
def wokenByShutdown : Sys :=
  { start with
    shared_mem := { start.shared_mem with producer_active := false }
    sem_read := 1
    cons := { start.cons with pc := .wait } }

/-- A state in which the consumer is at its wait and no read-permit is there. -/
def waitingEmpty : Sys :=
  { start with cons := { start.cons with pc := .wait } }

/-- The state a consumer at line 121 reaches by lines 121-147: the record is
copied, the write-permit released, the copy validated. -/
def afterCopy (s : Sys) : Sys :=
  { s with
    sem_write := s.sem_write + 1
    consumed := s.consumed + 1
    cons := { validate { s.cons with pc := .validate, data := s.shared_mem.data } with
      pc := .loop_head } }

/-! ## Calls on the three names -/

/-- Is the call a `shm_open`? -/
def Syscall.isShmOpen : Syscall → Bool
  | .shm_open _ _ => true
  | _ => false

/-- Is the call a `sem_open`? -/
def Syscall.isSemOpen : Syscall → Bool
  | .sem_open _ _ => true
  | _ => false

/-- Does the call create a named object (`O_CREAT`) or remove a name? -/
def Syscall.createsOrRemoves : Syscall → Bool
  | .shm_unlink _ => true
  | .sem_unlink _ => true
  | .shm_open _ create => create
  | .sem_open _ v => v.isSome
  | _ => false

/-- The calls of `n` rounds of lines 48-50 in which `shm_open` fails. -/
def failedRounds : Nat → List Syscall
  | 0 => []
  | n + 1 => [.shm_open .SHM_NAME false, .sleep] ++ failedRounds n

/-- Invariant of the tear-down calls, for every run: a process has made its
tear-down calls exactly when it has returned, and no other call. -/
structure CallsInv (s : Sys) : Prop where
  prod : s.prod.calls = if s.prod.pc = .exited then producerTeardown else []
  cons : s.cons.calls = if s.cons.pc = .exited then consumerTeardown else []

/-- Results with which the consumer keeps running and no `shm_open` succeeds. -/
def neverOpens : ConsumerSetupEnv :=
  { running_at := fun _ => true, shm_open_ok := fun _ => false,
    mmap_ok := true, sem_write_ok := true, sem_read_ok := true }

/-- Results with which the consumer's third `shm_open` is the first to succeed. -/
def opensThird : ConsumerSetupEnv :=
  { running_at := fun _ => true, shm_open_ok := fun i => decide (2 ≤ i),
    mmap_ok := true, sem_write_ok := true, sem_read_ok := true }

/-- State in which both processes have returned (run `shutdownBeforeRead`). -/
def bothExited : Sys := (run shutdownBeforeRead start).getD start

/-! ## Invariants for every run -/

/-- Invariant of the producer's counter and of the slot, for every run: the
counter is the number of records stored so far modulo `2 ^ 32`, and the slot
holds the record stored last. -/
structure SeqInv (s : Sys) : Prop where
  sequence : s.prod.sequence = u32 (s.published + s.prod.pc.inflight)
  slot : 0 < s.published + s.prod.pc.inflight →
    s.shared_mem.data.valid = true ∧
      s.shared_mem.data.sequence_number = u32 (s.published + s.prod.pc.inflight - 1)

/-! ## Further concrete states -/

/-- A state in which the producer, told to stop, is at its loop test while a
published record is unread (read-permit count 1). -/
def cancelledProducer : Sys :=
  (run (publishOnce ++ [.signal_producer]) start).getD start

/-- A state in which the producer is about to store its first record. -/
def producerAtMutate : Sys := (run producerInside start).getD start

/-- A state in which the consumer, having seen sequence number `2 ^ 32 - 1`, is
about to copy a valid record with sequence number 0. -/
def copyingWrapped : Sys :=
  { start with
    shared_mem := { start.shared_mem with data := mutateRecord sample 0 }
    cons := { start.cons with pc := .copy, last_sequence := 4294967295 } }

/-! ## Invariants of the handshake -/

/-- The permit invariant holds in the start state. -/
theorem permitInv_start : PermitInv start := by
  constructor <;> simp [start, PPc.holds, PPc.posted, PPc.activeFlag, CPc.holds, CPc.copying, CPc.stopped]

/-- While `producer_active` is true the shutdown post has not happened. -/
theorem posted_of_activeFlag (p : PPc) (h : p.activeFlag = true) : p.posted = 0 := by
  cases p <;> simp_all [PPc.activeFlag, PPc.posted]


/-- Every consumer step keeps the permit invariant. -/
theorem permitInv_consumer {s s' : Sys} {w : WaitResult}
    (h : PermitInv s) (hs : consumerStep w s = some s') : PermitInv s' := by
  obtain ⟨h1, h2, h3, h4, h5, h6⟩ := h
  have hp := posted_of_activeFlag s.prod.pc
  rw [← h5] at hp
  unfold consumerStep at hs
  cases hpc : s.cons.pc <;> simp only [hpc] at hs h4 h6 <;>
    simp [CPc.holds, CPc.copying, CPc.stopped] at h4 h6
  case loop_head =>
    simp at hs; subst hs
    constructor <;> simp <;> (try split) <;> (try simp [CPc.holds, CPc.copying, CPc.stopped]) <;> assumption
  case wait =>
    split at hs <;> (try split at hs) <;> simp at hs <;> subst hs <;>
    constructor <;> simp [CPc.holds, CPc.copying, CPc.stopped] <;> first | assumption | omega
  case timeout_check =>
    split at hs <;> simp at hs <;> subst hs <;>
    constructor <;> simp [CPc.holds, CPc.copying, CPc.stopped] <;> assumption
  case check_active =>
    split at hs <;> rename_i hact <;> simp at hs hact <;> subst hs
    · constructor <;> simp [CPc.holds, CPc.copying, CPc.stopped] <;> assumption
    · have hp0 := hp hact
      constructor <;> simp [CPc.holds, CPc.copying, CPc.stopped] <;> first | assumption | omega
  case copy =>
    simp at hs; subst hs
    constructor <;> simp [CPc.holds, CPc.copying, CPc.stopped] <;> assumption
  case post_write =>
    simp at hs; subst hs
    constructor <;> simp [CPc.holds, CPc.copying, CPc.stopped] <;> first | assumption | omega
  case validate =>
    simp at hs; subst hs
    constructor <;> simp [CPc.holds, CPc.copying, CPc.stopped, validate] <;> assumption
  case cleanup =>
    simp at hs; subst hs
    constructor <;> simp [CPc.holds, CPc.copying, CPc.stopped] <;> assumption
  case exited => simp at hs

/-- Every producer step whose wait acquires keeps the permit invariant. -/
theorem permitInv_producer {s s' : Sys} {r : Reading}
    (h : PermitInv s) (hs : producerStep .acquired r s = some s') : PermitInv s' := by
  obtain ⟨h1, h2, h3, h4, h5, h6⟩ := h
  unfold producerStep at hs
  cases hpc : s.prod.pc <;> simp only [hpc] at hs h2 h3 h4 h5 <;>
    simp only [PPc.holds, PPc.posted, PPc.activeFlag] at h2 h3 h4 h5 <;>
    (try split at hs) <;> simp at hs <;> subst hs <;>
    constructor <;> simp [PPc.holds, PPc.posted, PPc.activeFlag] <;>
    first | assumption | omega

/-- Every handshake action keeps the permit invariant. -/
theorem permitInv_step {s s' : Sys} {a : Action} (ha : a.handshake = true)
    (h : PermitInv s) (hs : step a s = some s') : PermitInv s' := by
  cases a with
  | producer w r =>
    cases w with
    | failed e => simp [Action.handshake] at ha
    | acquired => exact permitInv_producer h hs
  | consumer w => exact permitInv_consumer h hs
  | signal_producer =>
    simp only [step] at hs
    simp at hs; subst hs
    exact ⟨h.1, h.2, h.3, h.4, h.5, h.6⟩
  | signal_consumer =>
    simp only [step] at hs
    simp at hs; subst hs
    exact ⟨h.1, h.2, h.3, h.4, h.5, h.6⟩

/-- The data invariant holds in the start state. -/
theorem dataInv_start : DataInv start := by
  constructor <;> simp [start, PPc.inflight, CPc.pending, u32, i32, processedSeqs, gapReports]

/-- A record written but unpublished means the producer holds the write-permit. -/
theorem inflight_le_holds (p : PPc) : p.inflight ≤ p.holds := by
  cases p <;> simp [PPc.inflight, PPc.holds]

/-- Incrementing modulo `2 ^ 32` commutes with the reduction. -/
theorem u32_succ (n : Nat) : u32 (u32 n + 1) = u32 (n + 1) := by
  unfold u32; omega

/-- Incrementing in 32-bit `int` arithmetic commutes with the reduction. -/
theorem i32_succ (x : Int) : i32 (i32 x + 1) = i32 (x + 1) := by
  unfold i32; omega

/-- The processed sequence numbers of a concatenation. -/
theorem processedSeqs_append (xs ys : List Output) :
    processedSeqs (xs ++ ys) = processedSeqs xs ++ processedSeqs ys := by
  induction xs with
  | nil => rfl
  | cons x rest ih => cases x <;> simp [processedSeqs, ih]

/-- The gap reports of a concatenation. -/
theorem gapReports_append (xs ys : List Output) :
    gapReports (xs ++ ys) = gapReports xs ++ gapReports ys := by
  induction xs with
  | nil => rfl
  | cons x rest ih => cases x <;> simp [gapReports, ih]

/-- Every producer step whose wait acquires keeps the data invariant. -/
theorem dataInv_producer {s s' : Sys} {r : Reading}
    (h : DataInv s) (hs : producerStep .acquired r s = some s') : DataInv s' := by
  obtain ⟨h1, h2, h3, h4, h5, h6, h7, h8⟩ := h
  unfold producerStep at hs
  cases hpc : s.prod.pc <;> simp only [hpc] at hs h1 h2 <;>
    simp [PPc.inflight] at h1 h2 <;>
    (try split at hs) <;> simp at hs <;> subst hs <;>
    constructor <;> simp [PPc.inflight, mutateRecord] <;>
    first | assumption | omega | (rw [h1, u32_succ])

/-- Every consumer step keeps the data invariant, given the permit invariant. -/
theorem dataInv_consumer {s s' : Sys} {w : WaitResult}
    (hp : PermitInv s) (h : DataInv s) (hs : consumerStep w s = some s') : DataInv s' := by
  obtain ⟨h1, h2, h3, h4, h5, h6, h7, h8⟩ := h
  have hle := inflight_le_holds s.prod.pc
  have hw := hp.write
  have hc := hp.copying
  unfold consumerStep at hs
  cases hpc : s.cons.pc <;> simp only [hpc] at hs h3 h4 h5 h7 h8 hc <;>
    simp [CPc.pending, CPc.copying] at h3 h4 h5 h7 h8 hc
  case loop_head =>
    simp at hs; subst hs
    refine ⟨h1, h2, ?_, ?_, ?_, h6, ?_, ?_⟩ <;> simp <;> (try split) <;>
      (try simp [CPc.pending]) <;> assumption
  case wait =>
    split at hs <;> (try split at hs) <;> simp at hs <;> subst hs <;>
    refine ⟨h1, h2, ?_, ?_, ?_, ?_, ?_, ?_⟩ <;>
    simp [CPc.pending, processedSeqs_append, gapReports_append, processedSeqs, gapReports] <;>
    assumption
  case timeout_check =>
    split at hs <;> simp at hs <;> subst hs <;>
    refine ⟨h1, h2, ?_, ?_, ?_, ?_, ?_, ?_⟩ <;>
    simp [CPc.pending, processedSeqs_append, gapReports_append, processedSeqs, gapReports] <;>
    assumption
  case check_active =>
    split at hs <;> simp at hs <;> subst hs <;>
    refine ⟨h1, h2, ?_, ?_, ?_, ?_, ?_, ?_⟩ <;>
    simp [CPc.pending, processedSeqs_append, gapReports_append, processedSeqs, gapReports] <;>
    assumption
  case copy =>
    simp at hs; subst hs
    have h0 : s.prod.pc.inflight = 0 := by omega
    rw [h0] at h2
    have h2b := h2 (by omega)
    refine ⟨h1, by rw [h0]; exact h2, ?_, ?_, ?_, h6, ?_, ?_⟩ <;>
    simp [CPc.pending] <;> first | assumption | omega | skip
    rw [hc] at h2b
    simpa using h2b
  case post_write =>
    simp at hs; subst hs
    refine ⟨h1, h2, ?_, ?_, ?_, h6, ?_, ?_⟩ <;>
    simp [CPc.pending] <;> assumption
  case validate =>
    simp at hs; subst hs
    obtain ⟨hpos, hv, hseq⟩ := h4
    have hnogap : ¬ (s.cons.data.sequence_number ≠ u32 (s.cons.last_sequence + 1) ∧
        s.cons.last_sequence ≠ 0) := by
      rw [hseq, h7]
      intro hcon
      obtain ⟨ha, hb⟩ := hcon
      by_cases hk : s.consumed - 1 = 0
      · apply hb; rw [hk]; rfl
      · apply ha
        rw [u32_succ]
        congr 1
        omega
    refine ⟨h1, h2, ?_, ?_, ?_, ?_, ?_, ?_⟩ <;>
    simp [CPc.pending, validate, hv, hnogap, processedSeqs_append, gapReports_append,
      processedSeqs, gapReports] <;> first | assumption | omega | skip
    · rw [h5, hseq]
      obtain ⟨k, hk⟩ : ∃ k, s.consumed = k + 1 := ⟨s.consumed - 1, by omega⟩
      rw [hk]
      simp [List.range_succ]
    · rw [h8, i32_succ]
      congr 1
      omega
  case cleanup =>
    simp at hs; subst hs
    refine ⟨h1, h2, ?_, ?_, ?_, ?_, ?_, ?_⟩ <;>
    simp [CPc.pending, processedSeqs_append, gapReports_append, processedSeqs, gapReports] <;>
    assumption
  case exited => simp at hs

/-- Every handshake action keeps the data invariant. -/
theorem dataInv_step {s s' : Sys} {a : Action} (ha : a.handshake = true)
    (hp : PermitInv s) (h : DataInv s) (hs : step a s = some s') : DataInv s' := by
  cases a with
  | producer w r =>
    cases w with
    | failed e => simp [Action.handshake] at ha
    | acquired => exact dataInv_producer h hs
  | consumer w => exact dataInv_consumer hp h hs
  | signal_producer =>
    simp only [step] at hs
    simp at hs; subst hs
    exact ⟨h.1, h.2, h.3, h.4, h.5, h.6, h.7, h.8⟩
  | signal_consumer =>
    simp only [step] at hs
    simp at hs; subst hs
    exact ⟨h.1, h.2, h.3, h.4, h.5, h.6, h.7, h.8⟩

/-- Both invariants are kept along a run of handshake actions. -/
theorem inv_run {acts : List Action} : ∀ {s s' : Sys},
    (∀ a ∈ acts, a.handshake = true) → PermitInv s → DataInv s → run acts s = some s' →
      PermitInv s' ∧ DataInv s' := by
  induction acts with
  | nil =>
    intro s s' _ h hd hr
    simp [run] at hr
    subst hr
    exact ⟨h, hd⟩
  | cons a rest ih =>
    intro s s' hh h hd hr
    simp only [run] at hr
    cases hstep : step a s with
    | none => simp [hstep] at hr
    | some t =>
      simp [hstep] at hr
      have ha := hh a (List.mem_cons_self _ _)
      exact ih (fun b hb => hh b (List.mem_cons_of_mem _ hb))
        (permitInv_step ha h hstep) (dataInv_step ha h hd hstep) hr

/-- Both invariants hold in every state reachable under the handshake. -/
theorem inv_of_reachable {s : Sys} (h : Reachable s) : PermitInv s ∧ DataInv s := by
  obtain ⟨acts, hh, hr⟩ := h
  exact inv_run hh permitInv_start dataInv_start hr

/-- A producer step leaves the local state of the consumer alone. -/
theorem producerStep_cons {w : WaitResult} {r : Reading} {s s' : Sys}
    (hs : producerStep w r s = some s') : s'.cons = s.cons := by
  unfold producerStep at hs
  cases hpc : s.prod.pc <;> simp only [hpc] at hs <;> (try split at hs) <;>
    (try split at hs) <;> simp at hs <;> subst hs <;> rfl

/-- Lines 125-147 print a record as processed only if its `valid` flag is set. -/
theorem recordsValid_validate (c : Consumer) (h : RecordsValid c.out) :
    RecordsValid (validate c).out := by
  unfold validate
  split
  · rename_i hv
    intro d f hm
    simp only [List.mem_append, List.mem_singleton] at hm
    rcases hm with (hm | hm) | hm
    · exact h d f hm
    · split at hm <;> simp at hm
    · cases hm
      exact hv
  · exact h

/-- Every consumer step keeps `RecordsValid`. -/
theorem recordsValid_consumer {w : WaitResult} {s s' : Sys}
    (h : RecordsValid s.cons.out) (hs : consumerStep w s = some s') :
    RecordsValid s'.cons.out := by
  unfold consumerStep at hs
  cases hpc : s.cons.pc <;> simp only [hpc] at hs <;> (try split at hs) <;>
    (try split at hs) <;> simp at hs <;> subst hs <;>
    first
      | exact h
      | exact recordsValid_validate _ h
      | (intro d f hm; simp at hm; exact h d f hm)

/-- Every action keeps `RecordsValid`. -/
theorem recordsValid_step {a : Action} {s s' : Sys}
    (h : RecordsValid s.cons.out) (hs : step a s = some s') : RecordsValid s'.cons.out := by
  cases a with
  | producer w r => rw [producerStep_cons hs]; exact h
  | consumer w => exact recordsValid_consumer h hs
  | signal_producer => simp [step] at hs; subst hs; exact h
  | signal_consumer => simp [step] at hs; subst hs; exact h

/-- Every run keeps `RecordsValid`. -/
theorem recordsValid_run {acts : List Action} : ∀ {s s' : Sys},
    RecordsValid s.cons.out → run acts s = some s' → RecordsValid s'.cons.out := by
  induction acts with
  | nil =>
    intro s s' h hr
    simp [run] at hr
    subst hr
    exact h
  | cons a rest ih =>
    intro s s' h hr
    simp only [run] at hr
    cases hstep : step a s with
    | none => simp [hstep] at hr
    | some t =>
      simp [hstep] at hr
      exact ih (recordsValid_step h hstep) hr

/-! ## Lemmas on concrete runs and on the consumer's pass -/

/-- The state after one publish and one consumer pass is reachable. -/
theorem reachable_afterRoundTrip : Reachable afterRoundTrip :=
  ⟨publishOnce ++ consumeOnce, by decide, by decide⟩

/-- At most one released record awaits validation. -/
theorem pending_le_one (c : CPc) : c.pending ≤ 1 := by
  cases c <;> simp [CPc.pending]

/-- Outside `validate` no released record awaits validation. -/
theorem pending_eq_zero (c : CPc) (h : c ≠ .validate) : c.pending = 0 := by
  cases c <;> simp_all [CPc.pending]

/-- Below `2 ^ 32` the reduction modulo `2 ^ 32` changes nothing. -/
theorem map_u32_range (k : Nat) (hk : k ≤ 4294967296) :
    (List.range k).map u32 = List.range k := by
  conv_rhs => rw [← List.map_id (List.range k)]
  apply List.map_congr_left
  intro a ha
  have := List.mem_range.mp ha
  simp only [id, u32]
  omega

/-- Below `2 ^ 31` the reduction to `int` changes nothing. -/
theorem i32_small (k : Nat) (hk : k < 2147483648) : i32 (k : Int) = k := by
  unfold i32; omega

/-- Lines 121-147 from a consumer at the copy, as three steps. -/
theorem run_copy (s : Sys) (hpc : s.cons.pc = .copy) :
    run [cStep, cStep, cStep] s = some (afterCopy s) := by
  simp [run, step, cStep, consumerStep, hpc, afterCopy]

/-- A full pass of the consumer that acquires a permit while the producer is active. -/
theorem run_consumeOnce (s : Sys) (hpc : s.cons.pc = .loop_head)
    (hrun : s.cons.running = true) (hR : 0 < s.sem_read)
    (hact : s.shared_mem.producer_active = true) :
    run consumeOnce s =
      some (afterCopy { s with sem_read := s.sem_read - 1, cons := { s.cons with pc := .copy } }) := by
  simp [consumeOnce, run, step, cStep, consumerStep, hpc, hrun, hR, hact, afterCopy]

/-! ## Lemmas for every run, for the retry loop and for the calls -/

/-- The counter invariant holds in the start state. -/
theorem seqInv_start : SeqInv start := by
  constructor <;> simp [start, PPc.inflight, u32]

/-- Every producer step, whatever its wait returns, keeps the counter invariant. -/
theorem seqInv_producer {s s' : Sys} {w : WaitResult} {r : Reading}
    (h : SeqInv s) (hs : producerStep w r s = some s') : SeqInv s' := by
  obtain ⟨h1, h2⟩ := h
  unfold producerStep at hs
  cases hpc : s.prod.pc <;> simp only [hpc] at hs h1 h2 <;>
    simp [PPc.inflight] at h1 h2 <;>
    (try split at hs) <;> (try split at hs) <;> simp at hs <;> subst hs <;>
    constructor <;> simp [PPc.inflight, mutateRecord] <;>
    first | assumption | omega | (rw [h1, u32_succ])

/-- A consumer step leaves the producer, the slot and the publish count alone. -/
theorem consumerStep_frame {w : WaitResult} {s s' : Sys}
    (hs : consumerStep w s = some s') :
    s'.prod = s.prod ∧ s'.shared_mem = s.shared_mem ∧ s'.published = s.published := by
  unfold consumerStep at hs
  cases hpc : s.cons.pc <;> simp only [hpc] at hs <;> (try split at hs) <;>
    (try split at hs) <;> simp at hs <;> subst hs <;> simp

/-- Every action keeps the counter invariant. -/
theorem seqInv_step {a : Action} {s s' : Sys}
    (h : SeqInv s) (hs : step a s = some s') : SeqInv s' := by
  cases a with
  | producer w r => exact seqInv_producer h hs
  | consumer w =>
    obtain ⟨hp, hm, hpub⟩ := consumerStep_frame hs
    exact ⟨by rw [hp, hpub]; exact h.1, by rw [hp, hm, hpub]; exact h.2⟩
  | signal_producer => simp [step] at hs; subst hs; exact ⟨h.1, h.2⟩
  | signal_consumer => simp [step] at hs; subst hs; exact ⟨h.1, h.2⟩

/-- Every run keeps the counter invariant. -/
theorem seqInv_run {acts : List Action} : ∀ {s s' : Sys},
    SeqInv s → run acts s = some s' → SeqInv s' := by
  induction acts with
  | nil =>
    intro s s' h hr
    simp [run] at hr
    subst hr
    exact h
  | cons a rest ih =>
    intro s s' h hr
    simp only [run] at hr
    cases hstep : step a s with
    | none => simp [hstep] at hr
    | some t =>
      simp [hstep] at hr
      exact ih (seqInv_step h hstep) hr

/-- The retry loop makes at most as many `shm_open` calls as rounds remain
before the counter reaches 10. -/
theorem shmOpenLoop_count (env : ConsumerSetupEnv) : ∀ (fuel i : Nat),
    (shmOpenLoop env fuel i).2.countP Syscall.isShmOpen ≤ 10 - i := by
  intro fuel
  induction fuel with
  | zero => intro i; simp [shmOpenLoop]
  | succ n ih =>
    intro i
    simp only [shmOpenLoop]
    split
    · rename_i hc
      simp only [Bool.and_eq_true, decide_eq_true_eq] at hc
      split
      · simp [Syscall.isShmOpen]
        omega
      · have := ih (i + 1)
        simp [Syscall.isShmOpen, List.countP_cons] at this ⊢
        omega
    · simp

/-- The retry loop makes only `shm_open` (without `O_CREAT`) and `sleep` calls. -/
theorem shmOpenLoop_calls (env : ConsumerSetupEnv) : ∀ (fuel i : Nat),
    ∀ c ∈ (shmOpenLoop env fuel i).2, c = .shm_open .SHM_NAME false ∨ c = .sleep := by
  intro fuel
  induction fuel with
  | zero => intro i c hc; simp [shmOpenLoop] at hc
  | succ n ih =>
    intro i c hc
    simp only [shmOpenLoop] at hc
    split at hc
    · split at hc
      · simp at hc
        exact Or.inl hc
      · simp at hc
        rcases hc with hc | hc | hc
        · exact Or.inl hc
        · exact Or.inr hc
        · exact ih (i + 1) c hc
    · simp at hc

/-- The fuel never decides: once it covers the rounds left before the counter
reaches 10, more fuel gives the same result. -/
theorem shmOpenLoop_fuel (env : ConsumerSetupEnv) : ∀ (fuel i : Nat), 10 ≤ fuel + i →
    shmOpenLoop env (fuel + 1) i = shmOpenLoop env fuel i := by
  intro fuel
  induction fuel with
  | zero =>
    intro i hi
    have : ¬ i < 10 := by omega
    simp [shmOpenLoop, this]
  | succ n ih =>
    intro i hi
    have h := ih (i + 1) (by omega)
    conv_lhs => unfold shmOpenLoop
    conv_rhs => unfold shmOpenLoop
    simp only [h]

/-- With more than 10 units of fuel the loop gives what it gives with 10. -/
theorem shmOpenLoop_fuel_ge (env : ConsumerSetupEnv) : ∀ (extra : Nat),
    shmOpenLoop env (10 + extra) 0 = shmOpenLoop env 10 0 := by
  intro extra
  induction extra with
  | zero => rfl
  | succ n ih =>
    rw [← ih]
    exact shmOpenLoop_fuel env (10 + n) 0 (by omega)

/-- The loop stops at the first `shm_open` that succeeds: after `n` failed
rounds from counter `i` the call of round `i + n` is the last one. -/
theorem shmOpenLoop_first_success (env : ConsumerSetupEnv) : ∀ (n fuel i : Nat),
    n < fuel → i + n < 10 →
    (∀ j, i ≤ j → j ≤ i + n → env.running_at j = true) →
    (∀ j, i ≤ j → j < i + n → env.shm_open_ok j = false) →
    env.shm_open_ok (i + n) = true →
    shmOpenLoop env fuel i = (true, failedRounds n ++ [.shm_open .SHM_NAME false]) := by
  intro n
  induction n with
  | zero =>
    intro fuel i hf hi hrun _ hok
    obtain ⟨m, rfl⟩ : ∃ m, fuel = m + 1 := ⟨fuel - 1, by omega⟩
    have hr := hrun i (Nat.le_refl _) (by omega)
    simp only [Nat.add_zero] at hok hi
    simp [shmOpenLoop, hi, hr, hok, failedRounds]
  | succ n ih =>
    intro fuel i hf hi hrun hfail hok
    obtain ⟨m, rfl⟩ : ∃ m, fuel = m + 1 := ⟨fuel - 1, by omega⟩
    have hr := hrun i (Nat.le_refl _) (by omega)
    have hfi := hfail i (Nat.le_refl _) (by omega)
    have hi' : i < 10 := by omega
    have hrec := ih m (i + 1) (by omega) (by omega)
      (fun j h1 h2 => hrun j (by omega) (by omega))
      (fun j h1 h2 => hfail j (by omega) (by omega))
      (by rw [show i + 1 + n = i + (n + 1) by omega]; exact hok)
    simp [shmOpenLoop, hi', hr, hfi, hrec, failedRounds]

/-- The calls of `n` failed rounds contain `n` calls of `shm_open`. -/
theorem failedRounds_count (n : Nat) :
    (failedRounds n).countP Syscall.isShmOpen = n := by
  induction n with
  | zero => rfl
  | succ n ih =>
    simp [failedRounds, List.countP_cons, Syscall.isShmOpen, ih]

/-- If no `shm_open` succeeds the loop ends without a descriptor. -/
theorem shmOpenLoop_all_fail (env : ConsumerSetupEnv)
    (hfail : ∀ j, env.shm_open_ok j = false) : ∀ (fuel i : Nat),
    (shmOpenLoop env fuel i).1 = false := by
  intro fuel
  induction fuel with
  | zero => intro i; rfl
  | succ n ih =>
    intro i
    simp only [shmOpenLoop]
    split
    · simp [hfail i, ih (i + 1)]
    · rfl

/-- The tear-down invariant holds in the start state. -/
theorem callsInv_start : CallsInv start := by
  constructor <;> simp [start]

/-- A producer step leaves the consumer's calls and control point alone and
keeps the producer's part of the tear-down invariant. -/
theorem callsInv_producer {s s' : Sys} {w : WaitResult} {r : Reading}
    (h : CallsInv s) (hs : producerStep w r s = some s') : CallsInv s' := by
  obtain ⟨h1, h2⟩ := h
  have hc := producerStep_cons hs
  refine ⟨?_, by rw [hc]; exact h2⟩
  unfold producerStep at hs
  cases hpc : s.prod.pc <;> simp only [hpc] at hs h1 <;> simp at h1 <;>
    (try split at hs) <;> (try split at hs) <;> simp at hs <;> subst hs <;>
    simp [h1]

/-- A consumer step keeps the tear-down invariant. -/
theorem callsInv_consumer {s s' : Sys} {w : WaitResult}
    (h : CallsInv s) (hs : consumerStep w s = some s') : CallsInv s' := by
  obtain ⟨h1, h2⟩ := h
  obtain ⟨hp, -, -⟩ := consumerStep_frame hs
  refine ⟨by rw [hp]; exact h1, ?_⟩
  unfold consumerStep at hs
  cases hpc : s.cons.pc <;> simp only [hpc] at hs h2 <;> simp at h2 <;>
    (try split at hs) <;> (try split at hs) <;> simp at hs <;> subst hs <;>
    first
      | (simp [h2]; done)
      | (simp [validate]; split <;> simp [h2])

/-- Every action keeps the tear-down invariant. -/
theorem callsInv_step {a : Action} {s s' : Sys}
    (h : CallsInv s) (hs : step a s = some s') : CallsInv s' := by
  cases a with
  | producer w r => exact callsInv_producer h hs
  | consumer w => exact callsInv_consumer h hs
  | signal_producer => simp [step] at hs; subst hs; exact ⟨h.1, h.2⟩
  | signal_consumer => simp [step] at hs; subst hs; exact ⟨h.1, h.2⟩

/-- Every run keeps the tear-down invariant. -/
theorem callsInv_run {acts : List Action} : ∀ {s s' : Sys},
    CallsInv s → run acts s = some s' → CallsInv s' := by
  induction acts with
  | nil =>
    intro s s' h hr
    simp [run] at hr
    subst hr
    exact h
  | cons a rest ih =>
    intro s s' h hr
    simp only [run] at hr
    cases hstep : step a s with
    | none => simp [hstep] at hr
    | some t =>
      simp [hstep] at hr
      exact ih (callsInv_step h hstep) hr

/-- No set-up call of the consumer creates an object or removes a name, and a
`sem_open` is made only after a `shm_open` has succeeded. -/
theorem consumerSetup_calls (env : ConsumerSetupEnv) :
    ∀ c ∈ (consumerSetup env).calls,
      c.createsOrRemoves = false ∧
      (c.isSemOpen = true → (shmOpenLoop env 10 0).1 = true) := by
  have key : ∀ c ∈ (shmOpenLoop env 10 0).2,
      c.createsOrRemoves = false ∧ c.isSemOpen = false := by
    intro c hc
    rcases shmOpenLoop_calls env 10 0 c hc with h | h <;> subst h <;>
      simp [Syscall.createsOrRemoves, Syscall.isSemOpen]
  intro c hc
  cases h1 : (shmOpenLoop env 10 0).1 <;> cases h2 : env.mmap_ok <;>
    cases h3 : env.sem_write_ok <;> cases h4 : env.sem_read_ok <;>
    simp [consumerSetup, h1, h2, h3, h4] at hc <;>
    casesm* _ ∨ _ <;>
    first
      | (subst c; simp [Syscall.createsOrRemoves, Syscall.isSemOpen])
      | (rename_i hmem; have hk := key c hmem; simp [hk.1, hk.2])

/-- The `shm_open` calls of the consumer's set-up are those of its retry loop. -/
theorem consumerSetup_shm_open_count (env : ConsumerSetupEnv) :
    (consumerSetup env).calls.countP Syscall.isShmOpen =
      (shmOpenLoop env 10 0).2.countP Syscall.isShmOpen := by
  cases h1 : (shmOpenLoop env 10 0).1 <;> cases h2 : env.mmap_ok <;>
    cases h3 : env.sem_write_ok <;> cases h4 : env.sem_read_ok <;>
    simp [consumerSetup, h1, h2, h3, h4, List.countP_cons, Syscall.isShmOpen]

/-- C1 (amended): under the permit handshake, in a state in which the producer
has performed `N` publishes, the consumer has processed `k` records with
`N - 2 ≤ k ≤ N`; their sequence numbers are `0, 1, ..., k - 1` (modulo `2 ^ 32`)
in order, each of them had `valid` set, no gap was reported and
`packets_received` is `k` in 32-bit `int` arithmetic.  `k = N` as soon as no
published record is unread and the consumer is not about to validate one.  For
`N < 2 ^ 31` the sequence numbers are exactly `0, ..., k - 1` and
`packets_received = k`. -/
theorem handshake_delivery (s : Sys) (N : Nat) (hr : Reachable s) (hN : s.published = N) :
    ∃ k : Nat,
      processedSeqs s.cons.out = (List.range k).map u32 ∧
      RecordsValid s.cons.out ∧
      gapReports s.cons.out = [] ∧
      s.cons.packets_received = i32 (k : Int) ∧
      k ≤ N ∧ N ≤ k + 2 ∧
      (s.unread = 0 → s.cons.pc ≠ .validate → k = N) ∧
      (N < 2147483648 →
        processedSeqs s.cons.out = List.range k ∧ s.cons.packets_received = (k : Int)) := by
  obtain ⟨hp, hd⟩ := inv_of_reachable hr
  have hle := hp.le
  have hw := hp.write
  have hpend := pending_le_one s.cons.pc
  have hvalid : RecordsValid s.cons.out := by
    obtain ⟨acts, -, hrun⟩ := hr
    exact recordsValid_run (by intro d f hm; simp [start] at hm) hrun
  refine ⟨s.consumed - s.cons.pc.pending, hd.seqs, hvalid, hd.gaps, hd.count,
    by omega, by omega, ?_, ?_⟩
  · intro hu hv
    have := pending_eq_zero s.cons.pc hv
    simp only [Sys.unread] at hu
    omega
  · intro hlt
    constructor
    · rw [hd.seqs, map_u32_range]
      omega
    · rw [hd.count, i32_small]
      omega

/-- Instance of `handshake_delivery` at the state after one round trip. -/
theorem handshake_delivery_witness :
    Reachable afterRoundTrip ∧ afterRoundTrip.published = 1 ∧
    ∃ k : Nat,
      processedSeqs afterRoundTrip.cons.out = (List.range k).map u32 ∧
      RecordsValid afterRoundTrip.cons.out ∧
      gapReports afterRoundTrip.cons.out = [] ∧
      afterRoundTrip.cons.packets_received = i32 (k : Int) ∧
      k ≤ 1 ∧ 1 ≤ k + 2 ∧
      (afterRoundTrip.unread = 0 → afterRoundTrip.cons.pc ≠ .validate → k = 1) ∧
      (1 < 2147483648 →
        processedSeqs afterRoundTrip.cons.out = List.range k ∧
          afterRoundTrip.cons.packets_received = (k : Int)) :=
  ⟨reachable_afterRoundTrip, by decide,
    handshake_delivery afterRoundTrip 1 reachable_afterRoundTrip (by decide)⟩

/-- C1 (counterexample): one publish under the handshake, yet the consumer
ends with no record processed.  The producer publishes sequence number 0 and
runs its shutdown (lines 139-140) before the consumer's first wait; the
consumer acquires a read-permit, finds `producer_active` false at line 116 and
leaves the loop with `packets_received = 0`. -/
theorem last_record_dropped :
    (∀ a ∈ shutdownBeforeRead, a.handshake = true) ∧
    (run shutdownBeforeRead start).map
        (fun s => (s.published, s.prod.pc, s.cons.pc, s.cons.packets_received,
          processedSeqs s.cons.out)) =
      some (1, PPc.exited, CPc.exited, 0, []) := by
  decide

/-- C2 (code as it is): a gap after sequence number 0 is not reported.  In the
run `lostRecordOne` the consumer has processed record 0 (`packets_received = 1`,
`last_sequence = 0`) and holds a valid copy with sequence number 2, which is
not `last_sequence + 1`; the gap check of line 128 prints nothing, because its
second conjunct reads `last_sequence != 0`. -/
theorem gap_after_zero_unreported :
    (run lostRecordOne start).map
        (fun s => (s.cons.pc, s.cons.packets_received, s.cons.last_sequence,
          s.cons.data.sequence_number, s.cons.data.valid)) =
      some (CPc.validate, 1, 0, 2, true) ∧
    (run (lostRecordOne ++ [cStep]) start).map
        (fun s => (processedSeqs s.cons.out, gapReports s.cons.out)) =
      some ([0, 2], []) := by
  decide

/-- C3: a consumer at line 121 that copies a valid record releases the
write-permit, processes the record and returns to the loop test with
`last_sequence` set to the record's sequence number.  If the gap check fires,
the report carries `last_sequence + 1` as the expected and the record's
sequence number as the received value.  With `last_sequence = 2` and sequence
number 5 the report is (expected 3, got 5), two numbers missing, and a following
valid record with sequence number 6 is processed without a report. -/
theorem gap_report (s : Sys) (hpc : s.cons.pc = .copy) (hv : s.shared_mem.data.valid = true) :
    ∃ s1, run [cStep, cStep, cStep] s = some s1 ∧
      s1.cons.pc = .loop_head ∧
      s1.cons.last_sequence = s.shared_mem.data.sequence_number ∧
      processedSeqs s1.cons.out =
        processedSeqs s.cons.out ++ [s.shared_mem.data.sequence_number] ∧
      (s.shared_mem.data.sequence_number ≠ u32 (s.cons.last_sequence + 1) →
        s.cons.last_sequence ≠ 0 →
        gapReports s1.cons.out = gapReports s.cons.out ++
          [(u32 (s.cons.last_sequence + 1), s.shared_mem.data.sequence_number)]) ∧
      (s.cons.last_sequence = 2 → s.shared_mem.data.sequence_number = 5 →
        gapReports s1.cons.out = gapReports s.cons.out ++ [(3, 5)] ∧
        missingCount 3 5 = 2 ∧
        ∀ d : SensorData, d.valid = true → d.sequence_number = 6 →
          s1.cons.running = true → s1.shared_mem.producer_active = true →
          ∃ s2, run consumeOnce
              { s1 with shared_mem := { s1.shared_mem with data := d }, sem_read := s1.sem_read + 1 } =
                some s2 ∧
            s2.cons.pc = .loop_head ∧
            s2.cons.last_sequence = 6 ∧
            gapReports s2.cons.out = gapReports s1.cons.out ∧
            processedSeqs s2.cons.out = processedSeqs s1.cons.out ++ [6]) := by
  refine ⟨afterCopy s, run_copy s hpc, ?_, ?_, ?_, ?_, ?_⟩
  · simp [afterCopy]
  · simp [afterCopy, validate, hv]
  · simp only [afterCopy, validate, hv, if_true, processedSeqs_append]
    split <;> simp [processedSeqs]
  · intro h1 h2
    simp [afterCopy, validate, hv, h1, h2, processedSeqs_append, gapReports_append, gapReports]
  · intro h2 h5
    refine ⟨?_, by decide, ?_⟩
    · simp [afterCopy, validate, hv, h2, h5, u32, gapReports_append, gapReports]
    · intro d hdv hd6 hrun hact
      refine ⟨_, run_consumeOnce _ (by simp [afterCopy]) hrun (by simp) hact, ?_, ?_, ?_, ?_⟩
      · simp [afterCopy]
      · simp [afterCopy, validate, hv, hdv, hd6]
      · simp [afterCopy, validate, hv, hdv, hd6, u32, h5, gapReports_append, gapReports]
      · simp [afterCopy, validate, hv, hdv, hd6, u32, h5, processedSeqs_append, processedSeqs]

/-- Instance of `gap_report` at `copyingFive`. -/
theorem gap_report_witness :
    copyingFive.cons.pc = .copy ∧ copyingFive.shared_mem.data.valid = true ∧
    ∃ s1, run [cStep, cStep, cStep] copyingFive = some s1 ∧
      s1.cons.pc = .loop_head ∧
      s1.cons.last_sequence = copyingFive.shared_mem.data.sequence_number ∧
      processedSeqs s1.cons.out =
        processedSeqs copyingFive.cons.out ++ [copyingFive.shared_mem.data.sequence_number] ∧
      (copyingFive.shared_mem.data.sequence_number ≠ u32 (copyingFive.cons.last_sequence + 1) →
        copyingFive.cons.last_sequence ≠ 0 →
        gapReports s1.cons.out = gapReports copyingFive.cons.out ++
          [(u32 (copyingFive.cons.last_sequence + 1), copyingFive.shared_mem.data.sequence_number)]) ∧
      (copyingFive.cons.last_sequence = 2 → copyingFive.shared_mem.data.sequence_number = 5 →
        gapReports s1.cons.out = gapReports copyingFive.cons.out ++ [(3, 5)] ∧
        missingCount 3 5 = 2 ∧
        ∀ d : SensorData, d.valid = true → d.sequence_number = 6 →
          s1.cons.running = true → s1.shared_mem.producer_active = true →
          ∃ s2, run consumeOnce
              { s1 with shared_mem := { s1.shared_mem with data := d }, sem_read := s1.sem_read + 1 } =
                some s2 ∧
            s2.cons.pc = .loop_head ∧
            s2.cons.last_sequence = 6 ∧
            gapReports s2.cons.out = gapReports s1.cons.out ∧
            processedSeqs s2.cons.out = processedSeqs s1.cons.out ++ [6]) :=
  ⟨by decide, by decide, gap_report copyingFive (by decide) (by decide)⟩

/-- C4 (code as it is): the producer does not look at what `sem_wait` returns.
When the wait of line 109 fails with any `errno`, the next two steps store a
new record in the slot (lines 111-126) and release the read-permit (line 134),
while the write-permit count is what it was. -/
theorem producer_ignores_failed_wait (s : Sys) (e : Errno) (r : Reading)
    (hpc : s.prod.pc = .wait) :
    ∃ s1, run [.producer (.failed e) r, .producer .acquired r, .producer .acquired r] s =
        some s1 ∧
      s1.sem_write = s.sem_write ∧
      s1.shared_mem.data = mutateRecord r s.prod.sequence ∧
      s1.sem_read = s.sem_read + 1 ∧
      s1.published = s.published + 1 ∧
      s1.consumed = s.consumed := by
  refine ⟨{ s with
      shared_mem := { s.shared_mem with data := mutateRecord r s.prod.sequence }
      sem_read := s.sem_read + 1
      published := s.published + 1
      prod := { s.prod with
        pc := .sleep
        sequence := u32 (s.prod.sequence + 1)
        out := s.prod.out ++ [.published (mutateRecord r s.prod.sequence)] } }, ?_, ?_⟩
  · simp [run, step, producerStep, hpc]
  · simp

/-- Instance of `producer_ignores_failed_wait`: record 0 is unread, the write-permit count is 0 and the wait is interrupted. -/
theorem producer_ignores_failed_wait_witness :
    producerAtWait.prod.pc = .wait ∧ producerAtWait.sem_write = 0 ∧
    producerAtWait.unread = 1 ∧
    ∃ s1, run [.producer (.failed .EINTR) sample, .producer .acquired sample,
          .producer .acquired sample] producerAtWait = some s1 ∧
      s1.sem_write = producerAtWait.sem_write ∧
      s1.shared_mem.data = mutateRecord sample producerAtWait.prod.sequence ∧
      s1.sem_read = producerAtWait.sem_read + 1 ∧
      s1.published = producerAtWait.published + 1 ∧
      s1.consumed = producerAtWait.consumed :=
  ⟨by decide, by decide, by decide,
    producer_ignores_failed_wait producerAtWait .EINTR sample (by decide)⟩

/-- C5 (counterexample): after the producer's `sem_wait` of line 109 and before
its `sem_post` of line 134 the write-permit count is 0 and no published record
is unread: the sum is 0. -/
theorem permit_sum_zero_inside_producer :
    (∀ a ∈ producerInside, a.handshake = true) ∧
    (run producerInside start).map
        (fun s => (s.prod.pc, s.sem_write, s.unread, s.sem_write + s.unread)) =
      some (PPc.mutate, 0, 0, 0) := by
  decide

/-- C5 (amended): in every state reachable under the handshake, the
write-permit count, plus 1 if the producer is between its `sem_wait` (line 109)
and its `sem_post` (line 134), plus the number of published and unreleased
records, is 1.  So the count plus the unread records is 1 whenever the producer
is outside lines 111-134, and 0 inside. -/
theorem permit_sum (s : Sys) (hr : Reachable s) :
    s.sem_write + s.prod.pc.holds + s.unread = 1 ∧
    (s.prod.pc ≠ .mutate → s.prod.pc ≠ .post_read → s.sem_write + s.unread = 1) ∧
    (s.prod.pc = .mutate ∨ s.prod.pc = .post_read → s.sem_write + s.unread = 0) := by
  have hw := (inv_of_reachable hr).1.write
  refine ⟨hw, ?_, ?_⟩
  · intro h1 h2
    have h0 : s.prod.pc.holds = 0 := by
      cases hpc : s.prod.pc <;> simp_all [PPc.holds]
    simp only [Sys.unread]
    omega
  · intro h
    have h1 : s.prod.pc.holds = 1 := by
      rcases h with h | h <;> simp [h, PPc.holds]
    simp only [Sys.unread]
    omega

/-- Instance of `permit_sum` at the state after one round trip. -/
theorem permit_sum_witness :
    Reachable afterRoundTrip ∧
    (afterRoundTrip.sem_write + afterRoundTrip.prod.pc.holds + afterRoundTrip.unread = 1 ∧
    (afterRoundTrip.prod.pc ≠ .mutate → afterRoundTrip.prod.pc ≠ .post_read →
      afterRoundTrip.sem_write + afterRoundTrip.unread = 1) ∧
    (afterRoundTrip.prod.pc = .mutate ∨ afterRoundTrip.prod.pc = .post_read →
      afterRoundTrip.sem_write + afterRoundTrip.unread = 0)) :=
  ⟨reachable_afterRoundTrip, permit_sum afterRoundTrip reachable_afterRoundTrip⟩

/-- C6 (counterexample): the read-permit count reaches 2.  The producer
publishes a record (count 1) and, told to stop before the consumer has waited,
executes the `sem_post(sem_read)` of line 140. -/
theorem read_permit_two_at_shutdown :
    (∀ a ∈ shutdownUnread, a.handshake = true) ∧
    (run shutdownUnread start).map (fun s => (s.prod.pc, s.sem_write, s.sem_read)) =
      some (PPc.cleanup, 0, 2) := by
  decide

/-- C6 (amended): in every state reachable under the handshake the
write-permit count is at most 1; the read-permit count is at most 1 as long as
the producer has not executed its shutdown `sem_post` of line 140, and at most
2 afterwards. -/
theorem permit_bounds (s : Sys) (hr : Reachable s) :
    s.sem_write ≤ 1 ∧ s.sem_read ≤ 1 + s.prod.pc.posted ∧ s.sem_read ≤ 2 ∧
    (s.prod.pc ≠ .cleanup → s.prod.pc ≠ .exited → s.sem_read ≤ 1) := by
  obtain ⟨hp, -⟩ := inv_of_reachable hr
  have hw := hp.write
  have hrl := hp.read_le
  have hle := hp.le
  have hpost : s.prod.pc.posted ≤ 1 := by
    cases s.prod.pc <;> simp [PPc.posted]
  refine ⟨by omega, by omega, by omega, ?_⟩
  intro h1 h2
  have h0 : s.prod.pc.posted = 0 := by
    cases hpc : s.prod.pc <;> simp_all [PPc.posted]
  omega

/-- Instance of `permit_bounds` at the state after one round trip. -/
theorem permit_bounds_witness :
    Reachable afterRoundTrip ∧
    (afterRoundTrip.sem_write ≤ 1 ∧
      afterRoundTrip.sem_read ≤ 1 + afterRoundTrip.prod.pc.posted ∧
      afterRoundTrip.sem_read ≤ 2 ∧
      (afterRoundTrip.prod.pc ≠ .cleanup → afterRoundTrip.prod.pc ≠ .exited →
        afterRoundTrip.sem_read ≤ 1)) :=
  ⟨reachable_afterRoundTrip, permit_bounds afterRoundTrip reachable_afterRoundTrip⟩

/-- C7: a consumer at line 121 that copies a record whose `valid` flag is
false releases the write-permit once (the count goes up by exactly 1) and
returns to the loop test with `packets_received`, `last_sequence` and its
printed output unchanged; no gap is reported and the read-permit count is
untouched. -/
theorem invalid_record_skipped (s : Sys) (hpc : s.cons.pc = .copy)
    (hv : s.shared_mem.data.valid = false) :
    ∃ s1, run [cStep, cStep, cStep] s = some s1 ∧
      s1.sem_write = s.sem_write + 1 ∧
      s1.consumed = s.consumed + 1 ∧
      s1.sem_read = s.sem_read ∧
      s1.cons.pc = .loop_head ∧
      s1.cons.packets_received = s.cons.packets_received ∧
      s1.cons.last_sequence = s.cons.last_sequence ∧
      s1.cons.out = s.cons.out ∧
      s1.shared_mem = s.shared_mem ∧ s1.prod = s.prod := by
  refine ⟨afterCopy s, run_copy s hpc, ?_⟩
  simp [afterCopy, validate, hv]

/-- Instance of `invalid_record_skipped` at `copyingInvalid`. -/
theorem invalid_record_skipped_witness :
    copyingInvalid.cons.pc = .copy ∧ copyingInvalid.shared_mem.data.valid = false ∧
    ∃ s1, run [cStep, cStep, cStep] copyingInvalid = some s1 ∧
      s1.sem_write = copyingInvalid.sem_write + 1 ∧
      s1.consumed = copyingInvalid.consumed + 1 ∧
      s1.sem_read = copyingInvalid.sem_read ∧
      s1.cons.pc = .loop_head ∧
      s1.cons.packets_received = copyingInvalid.cons.packets_received ∧
      s1.cons.last_sequence = copyingInvalid.cons.last_sequence ∧
      s1.cons.out = copyingInvalid.cons.out ∧
      s1.shared_mem = copyingInvalid.shared_mem ∧ s1.prod = copyingInvalid.prod :=
  ⟨by decide, by decide, invalid_record_skipped copyingInvalid (by decide) (by decide)⟩

/-- C8: a consumer whose wait acquires the read-permit while `producer_active`
is false leaves the loop at line 118 without processing a record: the slot is
not copied, the write-permit is not released, `packets_received` and
`last_sequence` keep their values, and it then runs its tear-down and returns
with no further record processed. -/
theorem shutdown_wakeup_stops (s : Sys) (hpc : s.cons.pc = .wait) (hR : 0 < s.sem_read)
    (hact : s.shared_mem.producer_active = false) :
    ∃ s1 s2, run [cStep, cStep] s = some s1 ∧ run [cStep] s1 = some s2 ∧
      s1.cons.pc = .cleanup ∧ s2.cons.pc = .exited ∧
      s1.sem_read = s.sem_read - 1 ∧
      s2.cons.data = s.cons.data ∧
      s2.sem_write = s.sem_write ∧ s2.consumed = s.consumed ∧
      s2.cons.packets_received = s.cons.packets_received ∧
      s2.cons.last_sequence = s.cons.last_sequence ∧
      s1.cons.out = s.cons.out ++ [.peer_stopped] ∧
      processedSeqs s2.cons.out = processedSeqs s.cons.out ∧
      gapReports s2.cons.out = gapReports s.cons.out := by
  refine ⟨{ s with
      sem_read := s.sem_read - 1
      cons := { s.cons with pc := .cleanup, out := s.cons.out ++ [.peer_stopped] } },
    { s with
      sem_read := s.sem_read - 1
      cons := { s.cons with
        pc := .exited
        calls := s.cons.calls ++ consumerTeardown
        out := s.cons.out ++ [.peer_stopped] ++ [.consumer_stopped s.cons.packets_received]
        exit_code := some 0 } }, ?_, ?_, ?_⟩
  · simp [run, step, cStep, consumerStep, hpc, hR, hact]
  · simp [run, step, cStep, consumerStep]
  · simp [processedSeqs_append, gapReports_append, processedSeqs, gapReports]

/-- Instance of `shutdown_wakeup_stops` at `wokenByShutdown`. -/
theorem shutdown_wakeup_stops_witness :
    wokenByShutdown.cons.pc = .wait ∧ 0 < wokenByShutdown.sem_read ∧
    wokenByShutdown.shared_mem.producer_active = false ∧
    ∃ s1 s2, run [cStep, cStep] wokenByShutdown = some s1 ∧ run [cStep] s1 = some s2 ∧
      s1.cons.pc = .cleanup ∧ s2.cons.pc = .exited ∧
      s1.sem_read = wokenByShutdown.sem_read - 1 ∧
      s2.cons.data = wokenByShutdown.cons.data ∧
      s2.sem_write = wokenByShutdown.sem_write ∧ s2.consumed = wokenByShutdown.consumed ∧
      s2.cons.packets_received = wokenByShutdown.cons.packets_received ∧
      s2.cons.last_sequence = wokenByShutdown.cons.last_sequence ∧
      s1.cons.out = wokenByShutdown.cons.out ++ [.peer_stopped] ∧
      processedSeqs s2.cons.out = processedSeqs wokenByShutdown.cons.out ∧
      gapReports s2.cons.out = gapReports wokenByShutdown.cons.out :=
  ⟨by decide, by decide, by decide,
    shutdown_wakeup_stops wokenByShutdown (by decide) (by decide) (by decide)⟩

/-- C9: when the consumer's `sem_timedwait` fails with `ETIMEDOUT`, the next
step reads `producer_active` (line 103).  If it is false the consumer leaves the
loop, having printed that the producer has stopped; if it is true the consumer
is back at the loop test and nothing else in the state has changed: no record
copied, no permit taken or released, counters as before. -/
theorem timeout_outcomes (s : Sys) (w : WaitResult) (hpc : s.cons.pc = .wait)
    (hR : s.sem_read = 0) :
    (s.shared_mem.producer_active = false →
      run [.consumer (.failed .ETIMEDOUT), .consumer w] s =
        some { s with cons := { s.cons with
          pc := .cleanup, out := s.cons.out ++ [.peer_stopped] } }) ∧
    (s.shared_mem.producer_active = true →
      run [.consumer (.failed .ETIMEDOUT), .consumer w] s =
        some { s with cons := { s.cons with pc := .loop_head } }) := by
  constructor <;> intro hact <;> simp [run, step, consumerStep, hpc, hR, hact]

/-- Instance of `timeout_outcomes` at `waitingEmpty`. -/
theorem timeout_outcomes_witness :
    waitingEmpty.cons.pc = .wait ∧ waitingEmpty.sem_read = 0 ∧
    ((waitingEmpty.shared_mem.producer_active = false →
      run [.consumer (.failed .ETIMEDOUT), .consumer .acquired] waitingEmpty =
        some { waitingEmpty with cons := { waitingEmpty.cons with
          pc := .cleanup, out := waitingEmpty.cons.out ++ [.peer_stopped] } }) ∧
    (waitingEmpty.shared_mem.producer_active = true →
      run [.consumer (.failed .ETIMEDOUT), .consumer .acquired] waitingEmpty =
        some { waitingEmpty with cons := { waitingEmpty.cons with pc := .loop_head } })) :=
  ⟨by decide, by decide, timeout_outcomes waitingEmpty .acquired (by decide) (by decide)⟩

/-- C10 (code as it is): when `sem_timedwait` fails with an `errno` that is
neither `ETIMEDOUT` nor `EINTR`, the consumer prints the error, leaves the loop
(line 112), runs its tear-down and returns 0 from `main` (line 158), not 1. -/
theorem fatal_wait_error_exits_zero (s : Sys) (code : Nat) (w : WaitResult)
    (hpc : s.cons.pc = .wait) :
    ∃ s1, run [.consumer (.failed (.other code)), .consumer w] s = some s1 ∧
      s1.cons.pc = .exited ∧
      s1.cons.exit_code = some 0 ∧
      s1.cons.out = s.cons.out ++
        [.wait_error (.other code), .consumer_stopped s.cons.packets_received] ∧
      s1.cons.calls = s.cons.calls ++ consumerTeardown := by
  refine ⟨{ s with cons := { s.cons with
      pc := .exited
      calls := s.cons.calls ++ consumerTeardown
      out := s.cons.out ++ [.wait_error (.other code)] ++
        [.consumer_stopped s.cons.packets_received]
      exit_code := some 0 } }, ?_, ?_⟩
  · simp [run, step, consumerStep, hpc]
  · simp

/-- Instance of `fatal_wait_error_exits_zero` at `waitingEmpty` with `errno` 22. -/
theorem fatal_wait_error_exits_zero_witness :
    waitingEmpty.cons.pc = .wait ∧
    ∃ s1, run [.consumer (.failed (.other 22)), .consumer .acquired] waitingEmpty = some s1 ∧
      s1.cons.pc = .exited ∧
      s1.cons.exit_code = some 0 ∧
      s1.cons.out = waitingEmpty.cons.out ++
        [.wait_error (.other 22), .consumer_stopped waitingEmpty.cons.packets_received] ∧
      s1.cons.calls = waitingEmpty.cons.calls ++ consumerTeardown :=
  ⟨by decide, fatal_wait_error_exits_zero waitingEmpty 22 .acquired (by decide)⟩

/-- C11: when the consumer's `sem_timedwait` fails with `EINTR` the consumer is
back at the loop test and nothing else in the state has changed (no record
copied, no permit taken or released, counters as before).  When it fails with
any `errno` other than `ETIMEDOUT` and `EINTR` the consumer leaves the loop and
its next step closes both semaphores, unmaps the region and closes the
descriptor, in this order, and returns; no other call is made and no permit
is touched. -/
theorem wait_failure_outcomes (s : Sys) (w : WaitResult) (hpc : s.cons.pc = .wait) :
    step (.consumer (.failed .EINTR)) s =
      some { s with cons := { s.cons with pc := .loop_head } } ∧
    ∀ code : Nat, ∃ s1 s2,
      step (.consumer (.failed (.other code))) s = some s1 ∧
      step (.consumer w) s1 = some s2 ∧
      s1.cons.pc = .cleanup ∧ s2.cons.pc = .exited ∧
      s2.cons.calls = s.cons.calls ++
        [.sem_close .SEM_WRITE_NAME, .sem_close .SEM_READ_NAME, .munmap, .close] ∧
      s2.cons.exit_code.isSome = true ∧
      s2.sem_write = s.sem_write ∧ s2.sem_read = s.sem_read ∧
      s2.shared_mem = s.shared_mem ∧ s2.consumed = s.consumed ∧
      s2.cons.packets_received = s.cons.packets_received ∧
      s2.cons.last_sequence = s.cons.last_sequence ∧
      s2.cons.data = s.cons.data := by
  constructor
  · simp [step, consumerStep, hpc]
  · intro code
    refine ⟨{ s with cons := { s.cons with
        pc := .cleanup, out := s.cons.out ++ [.wait_error (.other code)] } },
      { s with cons := { s.cons with
        pc := .exited
        calls := s.cons.calls ++ consumerTeardown
        out := s.cons.out ++ [.wait_error (.other code)] ++
          [.consumer_stopped s.cons.packets_received]
        exit_code := some 0 } }, ?_, ?_, ?_⟩
    · simp [step, consumerStep, hpc]
    · simp [step, consumerStep]
    · simp [consumerTeardown]

/-- Instance of `wait_failure_outcomes` at `waitingEmpty`. -/
theorem wait_failure_outcomes_witness :
    waitingEmpty.cons.pc = .wait ∧
    (step (.consumer (.failed .EINTR)) waitingEmpty =
      some { waitingEmpty with cons := { waitingEmpty.cons with pc := .loop_head } } ∧
    ∀ code : Nat, ∃ s1 s2,
      step (.consumer (.failed (.other code))) waitingEmpty = some s1 ∧
      step (.consumer .acquired) s1 = some s2 ∧
      s1.cons.pc = .cleanup ∧ s2.cons.pc = .exited ∧
      s2.cons.calls = waitingEmpty.cons.calls ++
        [.sem_close .SEM_WRITE_NAME, .sem_close .SEM_READ_NAME, .munmap, .close] ∧
      s2.cons.exit_code.isSome = true ∧
      s2.sem_write = waitingEmpty.sem_write ∧ s2.sem_read = waitingEmpty.sem_read ∧
      s2.shared_mem = waitingEmpty.shared_mem ∧ s2.consumed = waitingEmpty.consumed ∧
      s2.cons.packets_received = waitingEmpty.cons.packets_received ∧
      s2.cons.last_sequence = waitingEmpty.cons.last_sequence ∧
      s2.cons.data = waitingEmpty.cons.data) :=
  ⟨by decide, wait_failure_outcomes waitingEmpty .acquired (by decide)⟩

/-- C13: in any run from the start state, when the producer stands at lines
111-126 with `k` records published before, the step stores a record made
only of freshly sampled values and the counter: every payload field is
overwritten, `valid` is true and the sequence number is `k` modulo `2 ^ 32`.
It is 0 for the first publish; for a later one it is one more (modulo
`2 ^ 32`) than the sequence number of the previous publish, which the slot
still holds; below `2 ^ 32` publishes it is `k` itself. -/
theorem publish_sequence (acts : List Action) (s : Sys) (w : WaitResult) (r : Reading)
    (hrun : run acts start = some s) (hpc : s.prod.pc = .mutate) :
    ∃ s1, step (.producer w r) s = some s1 ∧
      s1.shared_mem.data = mutateRecord r (u32 s.published) ∧
      s1.shared_mem.data.temperature = r.temperature ∧
      s1.shared_mem.data.pressure = r.pressure ∧
      s1.shared_mem.data.voltage = r.voltage ∧
      s1.shared_mem.data.error_code =
        (if r.rand_gate % 100 < 5 then ((r.rand_code % 10 : Nat) : Int) else 0) ∧
      s1.shared_mem.data.timestamp = r.timestamp ∧
      s1.shared_mem.data.valid = true ∧
      s1.shared_mem.data.sequence_number = u32 s.published ∧
      (s.published = 0 → s1.shared_mem.data.sequence_number = 0) ∧
      (0 < s.published →
        s.shared_mem.data.sequence_number = u32 (s.published - 1) ∧
        s1.shared_mem.data.sequence_number = u32 (s.shared_mem.data.sequence_number + 1)) ∧
      (s.published < 4294967296 → s1.shared_mem.data.sequence_number = s.published) ∧
      s1.prod.sequence = u32 (s.published + 1) := by
  have hinv := seqInv_run seqInv_start hrun
  have h1 := hinv.sequence
  have h2 := hinv.slot
  simp only [hpc, PPc.inflight, Nat.add_zero] at h1 h2
  refine ⟨{ s with
      shared_mem := { s.shared_mem with data := mutateRecord r s.prod.sequence }
      prod := { s.prod with
        pc := .post_read
        sequence := u32 (s.prod.sequence + 1)
        out := s.prod.out ++ [.published (mutateRecord r s.prod.sequence)] } }, ?_, ?_⟩
  · simp [step, producerStep, hpc]
  · simp only [h1, mutateRecord, true_and]
    refine ⟨?_, ?_, ?_, ?_⟩
    · intro h0
      rw [h0]
      rfl
    · intro hpos
      obtain ⟨-, hprev⟩ := h2 hpos
      refine ⟨hprev, ?_⟩
      rw [hprev, u32_succ]
      congr 1
      omega
    · intro hlt
      simp only [u32]
      omega
    · exact u32_succ s.published

/-- Instance of `publish_sequence` at the producer's first publish. -/
theorem publish_sequence_witness :
    run producerInside start = some producerAtMutate ∧
    producerAtMutate.prod.pc = .mutate ∧
    ∃ s1, step pStep producerAtMutate = some s1 ∧
      s1.shared_mem.data = mutateRecord sample (u32 producerAtMutate.published) ∧
      s1.shared_mem.data.temperature = sample.temperature ∧
      s1.shared_mem.data.pressure = sample.pressure ∧
      s1.shared_mem.data.voltage = sample.voltage ∧
      s1.shared_mem.data.error_code =
        (if sample.rand_gate % 100 < 5 then ((sample.rand_code % 10 : Nat) : Int) else 0) ∧
      s1.shared_mem.data.timestamp = sample.timestamp ∧
      s1.shared_mem.data.valid = true ∧
      s1.shared_mem.data.sequence_number = u32 producerAtMutate.published ∧
      (producerAtMutate.published = 0 → s1.shared_mem.data.sequence_number = 0) ∧
      (0 < producerAtMutate.published →
        producerAtMutate.shared_mem.data.sequence_number =
          u32 (producerAtMutate.published - 1) ∧
        s1.shared_mem.data.sequence_number =
          u32 (producerAtMutate.shared_mem.data.sequence_number + 1)) ∧
      (producerAtMutate.published < 4294967296 →
        s1.shared_mem.data.sequence_number = producerAtMutate.published) ∧
      s1.prod.sequence = u32 (producerAtMutate.published + 1) :=
  ⟨by decide, by decide,
    publish_sequence producerInside producerAtMutate .acquired sample (by decide) (by decide)⟩

/-- C14: a producer that finds `running` false at its loop test (line 108)
first clears `producer_active` (line 139) with the read-permit count still
untouched, then adds exactly 1 to the read-permit count whatever that count
is (line 140), then closes both semaphores, unlinks both semaphore names,
unmaps the region, closes the descriptor and unlinks the region's name, and
returns 0.  The payload record, the write-permit count and the consumer are
left as they were. -/
theorem producer_shutdown (s : Sys) (w : WaitResult) (r : Reading)
    (hpc : s.prod.pc = .loop_head) (hrun : s.prod.running = false) :
    ∃ s1 s2 s3,
      run [.producer w r, .producer w r] s = some s1 ∧
      step (.producer w r) s1 = some s2 ∧
      step (.producer w r) s2 = some s3 ∧
      s1.shared_mem.producer_active = false ∧ s1.sem_read = s.sem_read ∧
      s1.prod.calls = s.prod.calls ∧
      s2.sem_read = s.sem_read + 1 ∧ s2.prod.calls = s.prod.calls ∧
      s3.sem_read = s.sem_read + 1 ∧
      s3.shared_mem.producer_active = false ∧
      s3.shared_mem.data = s.shared_mem.data ∧
      s3.sem_write = s.sem_write ∧ s3.cons = s.cons ∧
      s3.published = s.published ∧
      s3.prod.pc = .exited ∧ s3.prod.exit_code = some 0 ∧
      s3.prod.calls = s.prod.calls ++
        [.sem_close .SEM_WRITE_NAME, .sem_close .SEM_READ_NAME,
         .sem_unlink .SEM_WRITE_NAME, .sem_unlink .SEM_READ_NAME,
         .munmap, .close, .shm_unlink .SHM_NAME] := by
  refine ⟨{ s with
      shared_mem := { s.shared_mem with producer_active := false }
      prod := { s.prod with pc := .shutdown_post } },
    { s with
      shared_mem := { s.shared_mem with producer_active := false }
      sem_read := s.sem_read + 1
      prod := { s.prod with pc := .cleanup } },
    { s with
      shared_mem := { s.shared_mem with producer_active := false }
      sem_read := s.sem_read + 1
      prod := { s.prod with
        pc := .exited
        calls := s.prod.calls ++ producerTeardown
        out := s.prod.out ++ [.producer_stopped]
        exit_code := some 0 } }, ?_, ?_, ?_, ?_⟩
  · simp [run, step, producerStep, hpc, hrun]
  · simp [step, producerStep]
  · simp [step, producerStep]
  · simp [producerTeardown]

/-- Instance of `producer_shutdown` at `cancelledProducer`, where the
read-permit count is already 1. -/
theorem producer_shutdown_witness :
    cancelledProducer.prod.pc = .loop_head ∧ cancelledProducer.prod.running = false ∧
    cancelledProducer.sem_read = 1 ∧
    ∃ s1 s2 s3,
      run [pStep, pStep] cancelledProducer = some s1 ∧
      step pStep s1 = some s2 ∧
      step pStep s2 = some s3 ∧
      s1.shared_mem.producer_active = false ∧ s1.sem_read = cancelledProducer.sem_read ∧
      s1.prod.calls = cancelledProducer.prod.calls ∧
      s2.sem_read = cancelledProducer.sem_read + 1 ∧
      s2.prod.calls = cancelledProducer.prod.calls ∧
      s3.sem_read = cancelledProducer.sem_read + 1 ∧
      s3.shared_mem.producer_active = false ∧
      s3.shared_mem.data = cancelledProducer.shared_mem.data ∧
      s3.sem_write = cancelledProducer.sem_write ∧ s3.cons = cancelledProducer.cons ∧
      s3.published = cancelledProducer.published ∧
      s3.prod.pc = .exited ∧ s3.prod.exit_code = some 0 ∧
      s3.prod.calls = cancelledProducer.prod.calls ++
        [.sem_close .SEM_WRITE_NAME, .sem_close .SEM_READ_NAME,
         .sem_unlink .SEM_WRITE_NAME, .sem_unlink .SEM_READ_NAME,
         .munmap, .close, .shm_unlink .SHM_NAME] :=
  ⟨by decide, by decide, by decide,
    producer_shutdown cancelledProducer .acquired sample (by decide) (by decide)⟩

/-- C15: the consumer's set-up calls `shm_open` at most 10 times (and the
bound of the loop, not the fuel of its model, is what ends it); if the call
of round `n < 10` is the first to succeed, the loop has made exactly `n + 1`
calls and makes no further one; if no call succeeds, set-up returns 1 after
the diagnostic, having made no call but `shm_open` and `sleep` after
installing the handlers: no `mmap` and no `sem_open`. -/
theorem shm_open_retry (env : ConsumerSetupEnv) :
    (consumerSetup env).calls.countP Syscall.isShmOpen ≤ 10 ∧
    (∀ extra : Nat, shmOpenLoop env (10 + extra) 0 = shmOpenLoop env 10 0) ∧
    (∀ n : Nat, n < 10 → (∀ j, j ≤ n → env.running_at j = true) →
      (∀ j, j < n → env.shm_open_ok j = false) → env.shm_open_ok n = true →
      shmOpenLoop env 10 0 = (true, failedRounds n ++ [.shm_open .SHM_NAME false]) ∧
      (consumerSetup env).calls.countP Syscall.isShmOpen = n + 1) ∧
    ((∀ j, env.shm_open_ok j = false) →
      (consumerSetup env).exit_code = some 1 ∧
      (consumerSetup env).out = [.waiting, .setup_error .shm_open] ∧
      (consumerSetup env).region = none ∧
      (∀ c ∈ (consumerSetup env).calls,
        c = .signal_handlers ∨ c = .shm_open .SHM_NAME false ∨ c = .sleep) ∧
      (∀ c ∈ (consumerSetup env).calls, c.isSemOpen = false)) := by
  refine ⟨?_, shmOpenLoop_fuel_ge env, ?_, ?_⟩
  · rw [consumerSetup_shm_open_count]
    exact shmOpenLoop_count env 10 0
  · intro n hn hrun hfail hok
    have hloop := shmOpenLoop_first_success env n 10 0 hn (by omega)
      (fun j _ h2 => hrun j (by omega)) (fun j _ h2 => hfail j (by omega))
      (by simpa using hok)
    refine ⟨hloop, ?_⟩
    rw [consumerSetup_shm_open_count, hloop]
    simp [List.countP_append, failedRounds_count, Syscall.isShmOpen]
  · intro hfail
    have h1 := shmOpenLoop_all_fail env hfail 10 0
    have hcalls : ∀ c ∈ (consumerSetup env).calls,
        c = .signal_handlers ∨ c = .shm_open .SHM_NAME false ∨ c = .sleep := by
      intro c hc
      simp [consumerSetup, h1] at hc
      rcases hc with hc | hc
      · exact Or.inl hc
      · exact Or.inr (shmOpenLoop_calls env 10 0 c hc)
    refine ⟨by simp [consumerSetup, h1], by simp [consumerSetup, h1],
      by simp [consumerSetup, h1], hcalls, ?_⟩
    intro c hc
    rcases hcalls c hc with h | h | h <;> subst h <;> rfl

/-- Instance of `shm_open_retry`: a consumer whose third `shm_open` succeeds
makes three calls, and one for which none succeeds returns 1. -/
theorem shm_open_retry_witness :
    (2 < 10 ∧ (∀ j, j ≤ 2 → opensThird.running_at j = true) ∧
      (∀ j, j < 2 → opensThird.shm_open_ok j = false) ∧
      opensThird.shm_open_ok 2 = true ∧
      shmOpenLoop opensThird 10 0 =
        (true, failedRounds 2 ++ [.shm_open .SHM_NAME false]) ∧
      (consumerSetup opensThird).calls.countP Syscall.isShmOpen = 2 + 1) ∧
    ((∀ j, neverOpens.shm_open_ok j = false) ∧
      (consumerSetup neverOpens).exit_code = some 1 ∧
      (consumerSetup neverOpens).out = [.waiting, .setup_error .shm_open] ∧
      (consumerSetup neverOpens).region = none ∧
      (∀ c ∈ (consumerSetup neverOpens).calls,
        c = .signal_handlers ∨ c = .shm_open .SHM_NAME false ∨ c = .sleep) ∧
      (∀ c ∈ (consumerSetup neverOpens).calls, c.isSemOpen = false)) :=
  ⟨⟨by decide, fun _ _ => rfl, fun j hj => by simp [opensThird]; omega, by decide,
      (shm_open_retry opensThird).2.2.1 2 (by decide) (fun _ _ => rfl)
        (fun j hj => by simp [opensThird]; omega) (by decide)⟩,
    ⟨fun _ => rfl, (shm_open_retry neverOpens).2.2.2 (fun _ => rfl)⟩⟩

/-- C16: no call of the consumer, in set-up or after its loop, creates an
object or removes a name: after its loop it only closes its two semaphore
handles, unmaps and closes its descriptor.  A producer that has returned from
its shutdown has called `shm_unlink` and both `sem_unlink`s, and where these
calls succeed none of the names is left behind.  Every set-up of the producer
starts by unlinking the three names, before its first creating call; where
the unlinks succeed none of the names denotes an object from an earlier run
when it is created. -/
theorem name_ownership :
    (∀ env : ConsumerSetupEnv, ∀ c ∈ (consumerSetup env).calls,
      c.createsOrRemoves = false) ∧
    (∀ (acts : List Action) (s : Sys), run acts start = some s →
      (∀ c ∈ s.cons.calls, c.createsOrRemoves = false ∧
        (c = .sem_close .SEM_WRITE_NAME ∨ c = .sem_close .SEM_READ_NAME ∨
          c = .munmap ∨ c = .close)) ∧
      (s.prod.pc = .exited →
        Syscall.shm_unlink .SHM_NAME ∈ s.prod.calls ∧
        Syscall.sem_unlink .SEM_WRITE_NAME ∈ s.prod.calls ∧
        Syscall.sem_unlink .SEM_READ_NAME ∈ s.prod.calls)) ∧
    (∀ k : Names, k.replay (succeeded producerTeardown) =
      { segment := none, sem_write := none, sem_read := none }) ∧
    (∀ env : ProducerSetupEnv, ∃ rest, (producerSetup env).calls =
      [.signal_handlers, .shm_unlink .SHM_NAME, .sem_unlink .SEM_WRITE_NAME,
        .sem_unlink .SEM_READ_NAME] ++ rest ∧
      ∀ k : Names, k.replay (succeeded [.signal_handlers, .shm_unlink .SHM_NAME,
          .sem_unlink .SEM_WRITE_NAME, .sem_unlink .SEM_READ_NAME]) =
        { segment := none, sem_write := none, sem_read := none }) := by
  refine ⟨fun env c hc => (consumerSetup_calls env c hc).1, ?_, ?_, ?_⟩
  · intro acts s hrun
    have hinv := callsInv_run callsInv_start hrun
    constructor
    · intro c hc
      rw [hinv.cons] at hc
      split at hc
      · simp [consumerTeardown] at hc
        rcases hc with h | h | h | h <;> subst h <;> simp [Syscall.createsOrRemoves]
      · simp at hc
    · intro hpc
      rw [hinv.prod, if_pos hpc]
      simp [producerTeardown]
  · intro k
    simp [Names.replay, succeeded, producerTeardown, Names.apply]
  · intro env
    cases h1 : env.shm_open_ok <;> cases h2 : env.ftruncate_ok <;>
      cases h3 : env.mmap_ok <;> cases h4 : env.sem_write_ok <;>
      cases h5 : env.sem_read_ok <;>
      exact ⟨_, by simp [producerSetup, producerPrologue, h1, h2, h3, h4, h5]; rfl,
        fun k => rfl⟩

/-- Instance of `name_ownership` at the run in which both processes return. -/
theorem name_ownership_witness :
    run shutdownBeforeRead start = some bothExited ∧
    bothExited.prod.pc = .exited ∧
    ((∀ c ∈ bothExited.cons.calls, c.createsOrRemoves = false ∧
        (c = .sem_close .SEM_WRITE_NAME ∨ c = .sem_close .SEM_READ_NAME ∨
          c = .munmap ∨ c = .close)) ∧
      (Syscall.shm_unlink .SHM_NAME ∈ bothExited.prod.calls ∧
        Syscall.sem_unlink .SEM_WRITE_NAME ∈ bothExited.prod.calls ∧
        Syscall.sem_unlink .SEM_READ_NAME ∈ bothExited.prod.calls)) :=
  ⟨by decide, by decide,
    (name_ownership.2.1 shutdownBeforeRead bothExited (by decide)).1,
    (name_ownership.2.1 shutdownBeforeRead bothExited (by decide)).2 (by decide)⟩

/-- C17: the gap check of line 128 is evaluated in `uint32_t` arithmetic.  A
consumer with `last_sequence = 2 ^ 32 - 1` that copies a valid record with
sequence number 0 reports no gap, since `last_sequence + 1` wraps to 0, and
sets `last_sequence` to 0.  On the producer's side the record stored with
counter value `2 ^ 32 - 1` leaves the counter at 0. -/
theorem gap_check_wraps (s : Sys) (hpc : s.cons.pc = .copy)
    (hv : s.shared_mem.data.valid = true)
    (hlast : s.cons.last_sequence = 4294967295)
    (hseq : s.shared_mem.data.sequence_number = 0) :
    u32 (s.cons.last_sequence + 1) = 0 ∧
    (∀ (t : Sys) (w : WaitResult) (r : Reading), t.prod.pc = .mutate →
      t.prod.sequence = 4294967295 →
      ∃ t1, step (.producer w r) t = some t1 ∧
        t1.shared_mem.data.sequence_number = 4294967295 ∧ t1.prod.sequence = 0) ∧
    ∃ s1, run [cStep, cStep, cStep] s = some s1 ∧
      gapReports s1.cons.out = gapReports s.cons.out ∧
      processedSeqs s1.cons.out = processedSeqs s.cons.out ++ [0] ∧
      s1.cons.last_sequence = 0 ∧
      s1.cons.pc = .loop_head := by
  refine ⟨by rw [hlast]; decide, ?_, afterCopy s, run_copy s hpc, ?_, ?_, ?_, ?_⟩
  · intro t w r htpc htseq
    refine ⟨{ t with
        shared_mem := { t.shared_mem with data := mutateRecord r t.prod.sequence }
        prod := { t.prod with
          pc := .post_read
          sequence := u32 (t.prod.sequence + 1)
          out := t.prod.out ++ [.published (mutateRecord r t.prod.sequence)] } }, ?_, ?_, ?_⟩
    · simp [step, producerStep, htpc]
    · simp [mutateRecord, htseq]
    · simp [htseq, u32]
  · simp [afterCopy, validate, hv, hlast, hseq, u32, gapReports_append, gapReports]
  · simp [afterCopy, validate, hv, hlast, hseq, u32, processedSeqs_append, processedSeqs]
  · simp [afterCopy, validate, hv, hseq]
  · simp [afterCopy]

/-- Instance of `gap_check_wraps` at `copyingWrapped`. -/
theorem gap_check_wraps_witness :
    copyingWrapped.cons.pc = .copy ∧ copyingWrapped.shared_mem.data.valid = true ∧
    copyingWrapped.cons.last_sequence = 4294967295 ∧
    copyingWrapped.shared_mem.data.sequence_number = 0 ∧
    (u32 (copyingWrapped.cons.last_sequence + 1) = 0 ∧
    (∀ (t : Sys) (w : WaitResult) (r : Reading), t.prod.pc = .mutate →
      t.prod.sequence = 4294967295 →
      ∃ t1, step (.producer w r) t = some t1 ∧
        t1.shared_mem.data.sequence_number = 4294967295 ∧ t1.prod.sequence = 0) ∧
    ∃ s1, run [cStep, cStep, cStep] copyingWrapped = some s1 ∧
      gapReports s1.cons.out = gapReports copyingWrapped.cons.out ∧
      processedSeqs s1.cons.out = processedSeqs copyingWrapped.cons.out ++ [0] ∧
      s1.cons.last_sequence = 0 ∧
      s1.cons.pc = .loop_head) :=
  ⟨by decide, by decide, by decide, by decide,
    gap_check_wraps copyingWrapped (by decide) (by decide) (by decide) (by decide)⟩

end ShmIpc
